import Mathlib

/-!
Verification development for the Quizzler chatbot quiz-generation pipeline
(`app/routes/chatbot.py`).  The Python route code is shallowly embedded:
pure string manipulation is modelled over `List Char`, Python `json.loads`
as a fuel-based recursive-descent parser, `datetime` values as microsecond
counts since the epoch, and the database client as an explicit
insert-outcome oracle together with a log of attempted writes.
-/

namespace Quizzler

/-! ### Character helpers -/

/-- The backtick character (written by code to avoid literal backticks). -/
def tkC : Char := '\x60'

/-- Newline. -/
def nlC : Char := '\n'

/-- Left brace `\x7b`. -/
def lbC : Char := '\x7b'

/-- Right brace `\x7d`. -/
def rbC : Char := '\x7d'

/-- Whitespace set used to model Python `str.strip()` (ASCII whitespace;
the full Unicode set of CPython is not needed by any input considered here). -/
def isPyWS (c : Char) : Bool :=
  c == ' ' || c == '\t' || c == '\n' || c == '\r' || c == '\x0b' || c == '\x0c'

/-- Whitespace set of the Python `json` module scanner. -/
def isJsonWS (c : Char) : Bool :=
  c == ' ' || c == '\t' || c == '\n' || c == '\r'

/-- Is this character a brace? -/
def isBrace (c : Char) : Bool := c == lbC || c == rbC

/-- Case-insensitive match of a character against a lowercase letter,
modelling `re.IGNORECASE` on the letters of `json`. -/
def jch (c : Char) (t : Char) : Bool := c.toLower == t

/-- Python `str.strip()` on a character list: drop leading and trailing
whitespace. -/
def pstrip (l : List Char) : List Char :=
  ((l.dropWhile isPyWS).reverse.dropWhile isPyWS).reverse

/-! ### The markdown-fence stripper

`clean_gemini_json` runs
`re.sub(r"^```(?:json)?|```$", "", cleaned, flags=re.IGNORECASE | re.MULTILINE)`.
We model the left-to-right scan of `re.sub`: at each position the regex can
match three backticks at a line start (optionally followed by `json`
case-insensitively), or three backticks immediately before a newline or the
end of the text.  Matched text is removed; all other characters are copied.
The scanner is fuel-indexed (fuel bounds the number of scan steps, one per
retained or matched position) so that it is structurally recursive. -/

/-- Do the first two characters both equal a backtick? -/
def ticks2 : List Char → Bool
  | a :: b :: _ => a == tkC && b == tkC
  | _ => false

/-- Do the first four characters spell `json` case-insensitively? -/
def isJsonSeq : List Char → Bool
  | a :: b :: c :: d :: _ => jch a 'j' && jch b 's' && jch c 'o' && jch d 'n'
  | _ => false

/-- One pass of the `re.sub` scan.  `b` records whether the current position
is at a line start (for the `^` anchor under `re.MULTILINE`). -/
def fenceScanF : Nat → Bool → List Char → List Char
  | 0, _, l => l
  | _ + 1, _, [] => []
  | f + 1, b, c :: rest =>
    if c == tkC && ticks2 rest then
      if b then
        if isJsonSeq (rest.drop 2) then fenceScanF f false ((rest.drop 2).drop 4)
        else fenceScanF f false (rest.drop 2)
      else
        if (rest.drop 2).isEmpty then []
        else if (rest.drop 2).head? == some nlC then fenceScanF f false (rest.drop 2)
        else c :: fenceScanF f false rest
    else c :: fenceScanF f (c == nlC) rest

/-- The fence stripper applied to a whole text (scan starts at a line start). -/
def fenceSub (l : List Char) : List Char := fenceScanF l.length true l

/-! ### First-`\x7b`-to-last-`\x7d` extraction

`re.search(r"\{.*\}", cleaned, re.DOTALL)` matches, when it matches at all,
from the first left brace to the last right brace that comes after it. -/

/-- Keep the prefix of `l` that ends at the last right brace. -/
def upToLastRB (l : List Char) : List Char :=
  (l.reverse.dropWhile (fun c => !(c == rbC))).reverse

/-- The candidate span matched by `\{.*\}` with `re.DOTALL`, if any. -/
def braceSpan (l : List Char) : Option (List Char) :=
  match l.dropWhile (fun c => !(c == lbC)) with
  | [] => none
  | c :: rest =>
    if rest.any (fun d => d == rbC) then some (c :: upToLastRB rest) else none

/-! ### JSON values and a model of Python `json.loads` -/

/-- JSON values as produced by `json.loads`.  Integer literals become `num`;
number literals with a fraction or exponent (Python floats) and the
non-standard `NaN`/`Infinity` tokens are kept as their source text in
`bignum`, since no code path in this pipeline inspects them. -/
inductive Json where
  | null : Json
  | bool (b : Bool) : Json
  | num (n : Int) : Json
  | bignum (s : String) : Json
  | str (s : String) : Json
  | arr (elems : List Json) : Json
  | obj (members : List (String × Json)) : Json

/-- Insert a key/value pair the way a Python `dict` build does: a repeated
key keeps its first position but takes the later value. -/
def insertKV (kvs : List (String × Json)) (k : String) (v : Json) :
    List (String × Json) :=
  if kvs.any (fun kv => kv.1 == k) then
    kvs.map (fun kv => if kv.1 == k then (k, v) else kv)
  else kvs ++ [(k, v)]

/-- Decimal digit test. -/
def isDig (c : Char) : Bool := '0' ≤ c && c ≤ '9'

/-- Digit value. -/
def digVal (c : Char) : Nat := c.toNat - 48

/-- Accumulate a run of digits into a natural number; returns the value,
the digits consumed, and the rest. -/
def takeDigits : List Char → Nat → Nat × Nat × List Char
  | c :: rest, acc =>
    if isDig c then takeDigits rest (acc * 10 + digVal c) else (acc, 0, c :: rest)
  | [], acc => (acc, 0, [])

/-- Run of leading digits (as characters). -/
def digitRun (l : List Char) : List Char := l.takeWhile isDig

/-- Natural-number value of a digit run. -/
def digitsVal (l : List Char) : Nat := l.foldl (fun a c => a * 10 + digVal c) 0

/-- Does `pre` occur at the head of `l`? -/
def leadsWith : List Char → List Char → Bool
  | [], _ => true
  | _ :: _, [] => false
  | p :: ps, c :: cs => p == c && leadsWith ps cs

/-- Hex digit value, if any. -/
def hexVal (c : Char) : Option Nat :=
  if isDig c then some (digVal c)
  else if 'a' ≤ c && c ≤ 'f' then some (c.toNat - 87)
  else if 'A' ≤ c && c ≤ 'F' then some (c.toNat - 55)
  else none

/-- Parse the body of a JSON string literal after the opening quote,
modelling the strict CPython scanner: `\` escapes, `\uXXXX` (surrogate
pairs combined; a lone surrogate is approximated by `Char.ofNat`'s total
fallback), raw control characters rejected. -/
def parseStrBody : Nat → List Char → List Char → Except String (String × List Char)
  | 0, _, _ => .error "fuel exhausted"
  | _ + 1, _, [] => .error "Unterminated string"
  | f + 1, acc, c :: rest =>
    if c == '"' then .ok (String.mk acc.reverse, rest)
    else if c == '\\' then
      match rest with
      | [] => .error "Unterminated string"
      | e :: rest2 =>
        if e == '"' then parseStrBody f ('"' :: acc) rest2
        else if e == '\\' then parseStrBody f ('\\' :: acc) rest2
        else if e == '/' then parseStrBody f ('/' :: acc) rest2
        else if e == 'b' then parseStrBody f ('\x08' :: acc) rest2
        else if e == 'f' then parseStrBody f ('\x0c' :: acc) rest2
        else if e == 'n' then parseStrBody f ('\n' :: acc) rest2
        else if e == 'r' then parseStrBody f ('\r' :: acc) rest2
        else if e == 't' then parseStrBody f ('\t' :: acc) rest2
        else if e == 'u' then
          match rest2 with
          | h1 :: h2 :: h3 :: h4 :: rest3 =>
            match hexVal h1, hexVal h2, hexVal h3, hexVal h4 with
            | some a, some b, some c', some d =>
              let cp := ((a * 16 + b) * 16 + c') * 16 + d
              if 0xD800 ≤ cp && cp ≤ 0xDBFF then
                match rest3 with
                | '\\' :: 'u' :: g1 :: g2 :: g3 :: g4 :: rest4 =>
                  match hexVal g1, hexVal g2, hexVal g3, hexVal g4 with
                  | some a2, some b2, some c2, some d2 =>
                    let cp2 := ((a2 * 16 + b2) * 16 + c2) * 16 + d2
                    if 0xDC00 ≤ cp2 && cp2 ≤ 0xDFFF then
                      let full := 0x10000 + (cp - 0xD800) * 0x400 + (cp2 - 0xDC00)
                      parseStrBody f (Char.ofNat full :: acc) rest4
                    else parseStrBody f (Char.ofNat cp :: acc) rest3
                  | _, _, _, _ => parseStrBody f (Char.ofNat cp :: acc) rest3
                | _ => parseStrBody f (Char.ofNat cp :: acc) rest3
              else parseStrBody f (Char.ofNat cp :: acc) rest3
            | _, _, _, _ => .error "Invalid \\uXXXX escape"
          | _ => .error "Invalid \\uXXXX escape"
        else .error "Invalid \\escape"
    else if c.toNat < 0x20 then .error "Invalid control character"
    else parseStrBody f (c :: acc) rest

/-- Parse a JSON number after an optional leading minus sign has been
recorded in `neg`.  Integer syntax yields `Json.num`; fraction or exponent
syntax yields `Json.bignum` carrying the matched token text. -/
def parseNumber (neg : Bool) (l : List Char) : Except String (Json × List Char) :=
  match l with
  | [] => .error "Expecting value"
  | c :: rest =>
    if !(isDig c) then .error "Expecting value"
    else
      let intDigits := if c == '0' then [c] else digitRun (c :: rest)
      let afterInt := (c :: rest).drop intDigits.length
      let fracDigits :=
        match afterInt with
        | '.' :: t => let r := digitRun t; if r.isEmpty then none else some r
        | _ => none
      let afterFrac :=
        match fracDigits with
        | some r => afterInt.drop (r.length + 1)
        | none => afterInt
      let expPart :=
        match afterFrac with
        | e :: t =>
          if e == 'e' || e == 'E' then
            match t with
            | s :: t2 =>
              if s == '+' || s == '-' then
                let r := digitRun t2
                if r.isEmpty then none else some (e :: s :: r)
              else
                let r := digitRun t
                if r.isEmpty then none else some (e :: r)
            | [] => none
          else none
        | [] => none
      let afterExp :=
        match expPart with
        | some p => afterFrac.drop p.length
        | none => afterFrac
      match fracDigits, expPart with
      | none, none =>
        let v : Int := Int.ofNat (digitsVal intDigits)
        .ok (.num (if neg then -v else v), afterInt)
      | _, _ =>
        let tok := (if neg then ['-'] else []) ++ intDigits ++
          (match fracDigits with | some r => '.' :: r | none => []) ++
          (match expPart with | some p => p | none => [])
        .ok (.bignum (String.mk tok), afterExp)

/-- Drop JSON whitespace. -/
def skipWs (l : List Char) : List Char := l.dropWhile isJsonWS

mutual

/-- Parse one JSON value at the head of `l` (no leading whitespace). -/
def parseValue : Nat → List Char → Except String (Json × List Char)
  | 0, _ => .error "fuel exhausted"
  | _ + 1, [] => .error "Expecting value"
  | f + 1, c :: rest =>
    if c == '"' then
      match parseStrBody (rest.length + 1) [] rest with
      | .ok (s, r) => .ok (.str s, r)
      | .error e => .error e
    else if c == lbC then parseObjBody f (skipWs rest)
    else if c == '[' then parseArrBody f (skipWs rest)
    else if leadsWith ['n', 'u', 'l', 'l'] (c :: rest) then
      .ok (.null, (c :: rest).drop 4)
    else if leadsWith ['t', 'r', 'u', 'e'] (c :: rest) then
      .ok (.bool true, (c :: rest).drop 4)
    else if leadsWith ['f', 'a', 'l', 's', 'e'] (c :: rest) then
      .ok (.bool false, (c :: rest).drop 5)
    else if leadsWith ['N', 'a', 'N'] (c :: rest) then
      .ok (.bignum "NaN", (c :: rest).drop 3)
    else if leadsWith ['I', 'n', 'f', 'i', 'n', 'i', 't', 'y'] (c :: rest) then
      .ok (.bignum "Infinity", (c :: rest).drop 8)
    else if c == '-' then
      if leadsWith ['I', 'n', 'f', 'i', 'n', 'i', 't', 'y'] rest then
        .ok (.bignum "-Infinity", rest.drop 8)
      else parseNumber true rest
    else parseNumber false (c :: rest)

/-- Parse the members of an object, positioned after `\x7b` with whitespace
already skipped. -/
def parseObjBody : Nat → List Char → Except String (Json × List Char)
  | 0, _ => .error "fuel exhausted"
  | _ + 1, [] => .error "Expecting property name enclosed in double quotes"
  | f + 1, c :: rest =>
    if c == rbC then .ok (.obj [], rest)
    else if c == '"' then parseMembers f [] (c :: rest)
    else .error "Expecting property name enclosed in double quotes"

/-- Parse `"key": value (, "key": value)* \x7d`, starting at a key quote. -/
def parseMembers : Nat → List (String × Json) → List Char →
    Except String (Json × List Char)
  | 0, _, _ => .error "fuel exhausted"
  | _ + 1, _, [] => .error "Expecting property name enclosed in double quotes"
  | f + 1, acc, c :: rest =>
    if c == '"' then
      match parseStrBody (rest.length + 1) [] rest with
      | .error e => .error e
      | .ok (k, r1) =>
        match skipWs r1 with
        | ':' :: r2 =>
          match parseValue f (skipWs r2) with
          | .error e => .error e
          | .ok (v, r3) =>
            let acc2 := insertKV acc k v
            match skipWs r3 with
            | ',' :: r4 =>
              match skipWs r4 with
              | r5 => parseMembers f acc2 r5
            | d :: r4 =>
              if d == rbC then .ok (.obj acc2, r4)
              else .error "Expecting comma delimiter"
            | [] => .error "Expecting comma delimiter"
        | _ => .error "Expecting colon delimiter"
    else .error "Expecting property name enclosed in double quotes"

/-- Parse the elements of an array, positioned after `[` with whitespace
already skipped. -/
def parseArrBody : Nat → List Char → Except String (Json × List Char)
  | 0, _ => .error "fuel exhausted"
  | _ + 1, [] => .error "Expecting value"
  | f + 1, c :: rest =>
    if c == ']' then .ok (.arr [], rest)
    else parseElems f [] (c :: rest)

/-- Parse `value (, value)* ]`, starting at the first element. -/
def parseElems : Nat → List Json → List Char → Except String (Json × List Char)
  | 0, _, _ => .error "fuel exhausted"
  | _ + 1, _, [] => .error "Expecting value"
  | f + 1, acc, l =>
    match parseValue f l with
    | .error e => .error e
    | .ok (v, r1) =>
      match skipWs r1 with
      | ',' :: r2 => parseElems f (acc ++ [v]) (skipWs r2)
      | d :: r2 =>
        if d == ']' then .ok (.arr (acc ++ [v]), r2)
        else .error "Expecting comma delimiter"
      | [] => .error "Expecting comma delimiter"

end

/-- Model of Python `json.loads`: skip leading whitespace, parse one value,
require only whitespace afterwards. -/
def jsonLoads (s : String) : Except String Json :=
  let l := skipWs s.toList
  match parseValue (s.toList.length + 2) l with
  | .error e => .error e
  | .ok (v, rest) =>
    if (skipWs rest).isEmpty then .ok v else .error "Extra data"

/-! ### The sanitizer `clean_gemini_json` -/

/-- An HTTP error as raised by the route code (`HTTPException`). -/
structure HTTPError where
  status : Nat
  detail : String
deriving DecidableEq

instance {ε α : Type} [DecidableEq ε] [DecidableEq α] : DecidableEq (Except ε α) :=
  fun x y =>
    match x, y with
    | .error e1, .error e2 =>
      if h : e1 = e2 then .isTrue (congrArg _ h)
      else .isFalse (fun hh => h (Except.error.inj hh))
    | .ok a1, .ok a2 =>
      if h : a1 = a2 then .isTrue (congrArg _ h)
      else .isFalse (fun hh => h (Except.ok.inj hh))
    | .error _, .ok _ => .isFalse (fun hh => Except.noConfusion hh)
    | .ok _, .error _ => .isFalse (fun hh => Except.noConfusion hh)

/-- Detail string of the no-JSON-block failure (carries the raw text). -/
def noJsonDetail (raw : String) : String :=
  "Gemini returned no JSON block.\nOutput:\n" ++ raw

/-- Detail string of the invalid-JSON failure (carries the parse error and
the candidate text). -/
def malformedDetail (e : String) (cand : String) : String :=
  "Gemini returned invalid JSON: " ++ e ++ "\nCleaned Output:\n" ++ cand

/-- The text after stripping, fence removal and re-stripping — the value of
`cleaned` at the parenthesis test of `clean_gemini_json`. -/
def preParen (raw : String) : List Char := pstrip (fenceSub (pstrip raw.toList))

/-- The cleaning pipeline of `clean_gemini_json` before JSON extraction:
strip, remove markdown fences, strip, remove one pair of wrapping
parentheses (with another strip). -/
def cleanPre (raw : String) : List Char :=
  if (preParen raw).head? == some '(' && (preParen raw).getLast? == some ')' then
    pstrip (((preParen raw).drop 1).dropLast)
  else preParen raw

/-- Model of `clean_gemini_json`: clean, locate the `\{.*\}` span, parse it. -/
def clean_gemini_json (raw : String) : Except HTTPError Json :=
  match braceSpan (cleanPre raw) with
  | none => .error ⟨400, noJsonDetail raw⟩
  | some cand =>
    match jsonLoads (String.mk cand) with
    | .ok v => .ok v
    | .error e => .error ⟨400, malformedDetail e (String.mk cand)⟩

/-! ### A model of the `datetime` values used by the route

Instants are microsecond counts.  A parsed ISO timestamp keeps its civil
(wall-clock) reading together with its explicit UTC offset, if any; a naive
timestamp is interpreted by `astimezone` in the system timezone, which the
model carries as an explicit parameter. -/

/-- Hinnant's civil-from-days / days-from-civil algorithms. -/
def daysFromCivil (y m d : Int) : Int :=
  let y' := y - (if m ≤ 2 then 1 else 0)
  let era := Int.fdiv y' 400
  let yoe := y' - era * 400
  let mp := Int.fmod (m + 9) 12
  let doy := Int.fdiv (153 * mp + 2) 5 + d - 1
  let doe := yoe * 365 + Int.fdiv yoe 4 - Int.fdiv yoe 100 + doy
  era * 146097 + doe - 719468

/-- Inverse of `daysFromCivil`. -/
def civilFromDays (z : Int) : Int × Int × Int :=
  let z' := z + 719468
  let era := Int.fdiv z' 146097
  let doe := z' - era * 146097
  let yoe := Int.fdiv (doe - Int.fdiv doe 1460 + Int.fdiv doe 36524
    - Int.fdiv doe 146096) 365
  let y := yoe + era * 400
  let doy := doe - (365 * yoe + Int.fdiv yoe 4 - Int.fdiv yoe 100)
  let mp := Int.fdiv (5 * doy + 2) 153
  let d := doy - Int.fdiv (153 * mp + 2) 5 + 1
  let m := mp + (if mp < 10 then 3 else -9)
  (y + (if m ≤ 2 then 1 else 0), m, d)

/-- Is `y` a Gregorian leap year? -/
def isLeap (y : Nat) : Bool := y % 4 == 0 && (y % 100 != 0 || y % 400 == 0)

/-- Days in a month. -/
def daysInMonth (y m : Nat) : Nat :=
  if m == 2 then (if isLeap y then 29 else 28)
  else if m == 4 || m == 6 || m == 9 || m == 11 then 30
  else 31

/-- A parsed `datetime`: civil microseconds since the epoch as written,
plus the written UTC offset in seconds, when one was present. -/
structure PyDateTime where
  civilUs : Int
  tz : Option Int
deriving DecidableEq

/-- Parse exactly two digits. -/
def parse2 : List Char → Option (Nat × List Char)
  | a :: b :: r =>
    if isDig a && isDig b then some (digVal a * 10 + digVal b, r) else none
  | _ => none

/-- Parse exactly four digits. -/
def parse4 : List Char → Option (Nat × List Char)
  | a :: b :: c :: d :: r =>
    if isDig a && isDig b && isDig c && isDig d then
      some (((digVal a * 10 + digVal b) * 10 + digVal c) * 10 + digVal d, r)
    else none
  | _ => none

/-- Expect one specific character. -/
def expectC (c : Char) : List Char → Option (List Char)
  | d :: r => if d == c then some r else none
  | [] => none

/-- Civil microseconds from calendar fields. -/
def civilUsOf (y mo da h mi ss us : Nat) : Int :=
  ((daysFromCivil y mo da) * 86400 +
    (h * 3600 + mi * 60 + ss : Nat)) * 1000000 + (us : Nat)

/-- Parse the optional time-of-day suffix (after the date and one separator
character) together with an optional `±HH:MM` offset. -/
def parseTimePart (l : List Char) : Option (Nat × Nat × Nat × Nat × Option Int) := do
  let (h, l) ← parse2 l
  let l ← expectC ':' l
  let (mi, l) ← parse2 l
  let (ss, us, l) ←
    match l with
    | ':' :: lr => do
      let (ss, lr) ← parse2 lr
      match lr with
      | p :: fr =>
        if p == '.' || p == ',' then
          let ds := digitRun fr
          if ds.isEmpty then none
          else
            let us := digitsVal (ds.take 6) * 10 ^ (6 - min 6 ds.length)
            some (ss, us, fr.drop ds.length)
        else some (ss, 0, lr)
      | [] => some (ss, 0, ([] : List Char))
    | _ => some (0, 0, l)
  let tzAndRest ←
    match l with
    | [] => some (Option.none, ([] : List Char))
    | s :: lr =>
      if s == '+' || s == '-' then do
        let (th, lr) ← parse2 lr
        let lr ← expectC ':' lr
        let (tm, lr) ← parse2 lr
        if th ≤ 23 && tm ≤ 59 then
          let off : Int := (th * 3600 + tm * 60 : Nat)
          some (Option.some (if s == '-' then -off else off), lr)
        else none
      else none
  if h ≤ 23 && mi ≤ 59 && ss ≤ 59 && tzAndRest.2.isEmpty then
    some (h, mi, ss, us, tzAndRest.1)
  else none

/-- Model of `datetime.fromisoformat`, covering the
`YYYY-MM-DD[<sep>HH:MM[:SS[.ffff]]][±HH:MM]` forms the route can receive
(Python accepts further variants that no caller here produces). -/
def pyFromIso (s : String) : Option PyDateTime := do
  let l := s.toList
  let (y, l) ← parse4 l
  let l ← expectC '-' l
  let (mo, l) ← parse2 l
  let l ← expectC '-' l
  let (da, l) ← parse2 l
  if !(1 ≤ y && y ≤ 9999 && 1 ≤ mo && mo ≤ 12 && 1 ≤ da && da ≤ daysInMonth y mo) then
    none
  else
    match l with
    | [] => some ⟨civilUsOf y mo da 0 0 0 0, none⟩
    | _ :: lt => do
      let (h, mi, ss, us, tz) ← parseTimePart lt
      some ⟨civilUsOf y mo da h mi ss us, tz⟩

/-- `str.replace('Z', '+00:00')` (applied by the route before parsing). -/
def replaceZ (s : String) : String :=
  String.mk (s.toList.flatMap (fun c => if c == 'Z' then "+00:00".toList else [c]))

/-- The UTC instant of a parsed datetime: an aware value uses its own
offset; a naive one is interpreted by `astimezone` in the system timezone. -/
def toUtcUs (sysTz : Int) (dt : PyDateTime) : Int :=
  dt.civilUs - 1000000 * (match dt.tz with | some o => o | none => sysTz)

/-- The fixed IST offset, in seconds. -/
def istOffsetSec : Int := 19800

/-- Zero-padded decimal rendering. -/
def padZ (w : Nat) (n : Nat) : String :=
  let s := toString n
  String.mk (List.replicate (w - s.length) '0') ++ s

/-- `datetime.isoformat()` of an instant carrying the IST timezone
(every stored timestamp is converted with `astimezone(IST)` first). -/
def fmtIST (utcUs : Int) : String :=
  let civ := utcUs + istOffsetSec * 1000000
  let us := (Int.fmod civ 1000000).toNat
  let totalSec := Int.fdiv civ 1000000
  let days := Int.fdiv totalSec 86400
  let sod := (Int.fmod totalSec 86400).toNat
  let ymd := civilFromDays days
  padZ 4 ymd.1.toNat ++ "-" ++ padZ 2 ymd.2.1.toNat ++ "-" ++ padZ 2 ymd.2.2.toNat
    ++ "T" ++ padZ 2 (sod / 3600) ++ ":" ++ padZ 2 (sod % 3600 / 60) ++ ":"
    ++ padZ 2 (sod % 60)
    ++ (if us == 0 then "" else "." ++ padZ 6 us) ++ "+05:30"

/-! ### The request data model (`QuestionCreate`, `QuizCreate`) -/

/-- Mirror of the pydantic `QuestionCreate` model. -/
structure QuestionCreate where
  question_text : String
  option_a : String
  option_b : String
  option_c : String
  option_d : String
  correct_option : String
deriving DecidableEq

/-- Mirror of `QuestionCreate.validate_lengths`: returns the message of the
first failed check (the Python method raises `ValueError` with it), or
`none` when every check passes. -/
def validate_lengths (q : QuestionCreate) : Option String :=
  if q.question_text.length > 500 then
    some "Question text cannot exceed 500 characters"
  else if q.option_a.length > 200 then
    some "Option A cannot exceed 200 characters"
  else if q.option_b.length > 200 then
    some "Option B cannot exceed 200 characters"
  else if q.option_c.length > 200 then
    some "Option C cannot exceed 200 characters"
  else if q.option_d.length > 200 then
    some "Option D cannot exceed 200 characters"
  else if !(["a", "b", "c", "d"].any (fun o => o == q.correct_option)) then
    some "Correct option must be \x27a\x27, \x27b\x27, \x27c\x27, or \x27d\x27"
  else none

/-- Mirror of the pydantic `QuizCreate` model (defaults as in the source). -/
structure QuizCreate where
  title : String
  description : String
  is_trivia : Bool := false
  topic : Option String := none
  start_time : Option String := none
  end_time : Option String := none
  duration : Int := 60
  positive_mark : Int := 1
  negative_mark : Int := 0
  navigation_type : String := "omni"
  tab_switch_exit : Bool := true
  difficulty : Option String := none
  questions : List QuestionCreate := []
deriving DecidableEq

/-- Python truthiness of an optional string (`if quiz_data.start_time:`):
`None` and the empty string are falsy. -/
def truthy : Option String → Bool
  | some s => !s.isEmpty
  | none => false

/-! ### The persister (`create_quiz_internal`) -/

/-- The quiz record handed to `db.insert("quizzes", ...)`. -/
structure QuizRow where
  id : String
  title : String
  description : String
  creator_id : String
  is_trivia : Bool
  topic : Option String
  start_time : Option String
  end_time : Option String
  duration : Int
  positive_mark : Int
  negative_mark : Int
  navigation_type : String
  tab_switch_exit : Bool
  difficulty : Option String
  popularity : Int
  is_active : Bool
  created_at : String
deriving DecidableEq

/-- The question record handed to `db.insert("questions", ...)`. -/
structure QuestionRow where
  quiz_id : String
  question_text : String
  option_a : String
  option_b : String
  option_c : String
  option_d : String
  correct_option : String
  mark : Int
deriving DecidableEq

/-- One attempted store write. -/
inductive Write where
  | quiz (r : QuizRow) : Write
  | question (r : QuestionRow) : Write
deriving DecidableEq

/-- The environment of one request: the two `datetime.now(IST)` readings,
the system timezone assumed for naive timestamps, the generated UUID, the
authenticated user, and the store's outcome for each attempted insert
(`some msg` models the client raising an exception with text `msg`). -/
structure Env where
  nowUs : Int
  createdAtUs : Int
  sysTz : Int
  newId : String
  userId : String
  insertQuizOutcome : QuizRow → Option String
  insertQuestionOutcome : QuestionRow → Option String

/-- Lines 176-214 of `chatbot.py`: resolve `start_time`/`end_time` from at
most one caller-supplied bound and the duration. -/
def resolveTimes (env : Env) (duration : Int) (st et : Option String) :
    Except HTTPError (Option String × Option String) :=
  if truthy st then
    match pyFromIso (replaceZ (st.getD "")) with
    | none => .error ⟨400, "Invalid start_time format. Use ISO format."⟩
    | some dt =>
      let s := toUtcUs env.sysTz dt
      if s ≤ env.nowUs then
        .error ⟨400, "Start time must be in the future for scheduled quizzes"⟩
      else .ok (some (fmtIST s), some (fmtIST (s + duration * 60000000)))
  else if truthy et then
    match pyFromIso (replaceZ (et.getD "")) with
    | none => .error ⟨400, "Invalid end_time format. Use ISO format."⟩
    | some dt =>
      let e := toUtcUs env.sysTz dt
      let s := e - duration * 60000000
      if s ≤ env.nowUs then
        .error ⟨400, "Quiz duration too long for the specified end time"⟩
      else .ok (some (fmtIST s), some (fmtIST e))
  else .ok (none, none)

/-- The per-question validation loop of `create_quiz_internal`: the message
of the first failing question together with its 1-based index. -/
def validateAll : List QuestionCreate → Nat → Option (Nat × String)
  | [], _ => none
  | q :: rest, i =>
    match validate_lengths q with
    | some m => some (i, m)
    | none => validateAll rest (i + 1)

/-- The quiz record built by `create_quiz_internal` (note the hard-coded
`is_trivia`/`topic`/`difficulty`/`popularity`/`is_active` fields). -/
def mkQuizRow (env : Env) (qd : QuizCreate) (st et : Option String) : QuizRow :=
  { id := env.newId
    title := qd.title
    description := qd.description
    creator_id := env.userId
    is_trivia := false
    topic := none
    start_time := st
    end_time := et
    duration := qd.duration
    positive_mark := qd.positive_mark
    negative_mark := qd.negative_mark
    navigation_type := qd.navigation_type
    tab_switch_exit := qd.tab_switch_exit
    difficulty := none
    popularity := 0
    is_active := true
    created_at := fmtIST env.createdAtUs }

/-- The question record built inside the insertion loop. -/
def mkQuestionRow (qid : String) (mark : Int) (q : QuestionCreate) : QuestionRow :=
  { quiz_id := qid
    question_text := q.question_text
    option_a := q.option_a
    option_b := q.option_b
    option_c := q.option_c
    option_d := q.option_d
    correct_option := q.correct_option
    mark := mark }

/-- The question insertion loop: first store failure message (if any) and
the attempted writes. -/
def insertQuestionsLoop (env : Env) (qid : String) (mark : Int) :
    List QuestionCreate → Option String × List Write
  | [] => (none, [])
  | q :: rest =>
    let row := mkQuestionRow qid mark q
    match env.insertQuestionOutcome row with
    | some msg => (some msg, [Write.question row])
    | none =>
      let r := insertQuestionsLoop env qid mark rest
      (r.1, Write.question row :: r.2)

/-- Lowercase a string (Python `str.lower()`, ASCII range). -/
def lowerStr (s : String) : String := String.mk (s.toList.map Char.toLower)

/-- Does `needle` occur as a contiguous substring of `hay` (Python `in`)? -/
def containsSub (hay needle : String) : Bool :=
  (List.range (hay.toList.length + 1)).any
    (fun i => leadsWith needle.toList (hay.toList.drop i))

/-- The `except Exception` classifier at the bottom of
`create_quiz_internal`: a store message containing `"duplicate key value"`
(case-sensitively) or `"unique"` (case-insensitively) becomes the
duplicate-title error; anything else becomes the generic failure embedding
the message. -/
def classifyStoreError (msg : String) : HTTPError :=
  if containsSub msg "duplicate key value" || containsSub (lowerStr msg) "unique" then
    ⟨400, "A quiz with this title already exists. Please choose a different title."⟩
  else ⟨400, "Failed to create quiz: " ++ msg⟩

/-- Result of a successful `create_quiz_internal`. -/
structure CreateResult where
  quiz_id : String
  title : String
deriving DecidableEq

/-- Model of `create_quiz_internal`: count checks, per-question validation,
time resolution, quiz insert, question inserts; paired with the log of
attempted store writes. -/
def createQuizInternal (env : Env) (qd : QuizCreate) :
    Except HTTPError CreateResult × List Write :=
  if qd.questions.length > 50 then
    (.error ⟨400, "Maximum 50 questions allowed per quiz"⟩, [])
  else if qd.questions.length < 1 then
    (.error ⟨400, "At least 1 question is required"⟩, [])
  else
    match validateAll qd.questions 1 with
    | some im =>
      (.error ⟨400, "Question " ++ toString im.1 ++ ": " ++ im.2⟩, [])
    | none =>
      match resolveTimes env qd.duration qd.start_time qd.end_time with
      | .error ex => (.error ex, [])
      | .ok stet =>
        match env.insertQuizOutcome (mkQuizRow env qd stet.1 stet.2) with
        | some msg =>
          (.error (classifyStoreError msg), [Write.quiz (mkQuizRow env qd stet.1 stet.2)])
        | none =>
          match (insertQuestionsLoop env env.newId qd.positive_mark qd.questions).1 with
          | some msg =>
            (.error (classifyStoreError msg),
             Write.quiz (mkQuizRow env qd stet.1 stet.2) ::
               (insertQuestionsLoop env env.newId qd.positive_mark qd.questions).2)
          | none =>
            (.ok ⟨env.newId, qd.title⟩,
             Write.quiz (mkQuizRow env qd stet.1 stet.2) ::
               (insertQuestionsLoop env env.newId qd.positive_mark qd.questions).2)

/-! ### Parsing the oracle payload into `QuizCreate` (pydantic) -/

/-- Look a key up in an object's members (keys are unique after
`insertKV`). -/
def fieldLookup (kvs : List (String × Json)) (k : String) : Option Json :=
  (kvs.find? (fun kv => kv.1 == k)).map (fun kv => kv.2)

/-- A required `str` field. -/
def reqStr (kvs : List (String × Json)) (k : String) : Except String String :=
  match fieldLookup kvs k with
  | some (.str s) => .ok s
  | some _ => .error (k ++ ": str type expected")
  | none => .error (k ++ ": field required")

/-- An `Optional[str]` field defaulting to `None`. -/
def optStrOpt (kvs : List (String × Json)) (k : String) :
    Except String (Option String) :=
  match fieldLookup kvs k with
  | some (.str s) => .ok (some s)
  | some .null => .ok none
  | some _ => .error (k ++ ": str type expected")
  | none => .ok none

/-- A `str` field with a default. -/
def optStrD (kvs : List (String × Json)) (k : String) (d : String) :
    Except String String :=
  match fieldLookup kvs k with
  | some (.str s) => .ok s
  | some _ => .error (k ++ ": str type expected")
  | none => .ok d

/-- An `int` field with a default (the model accepts only integer JSON
numbers, the shape the oracle is instructed to produce). -/
def optIntD (kvs : List (String × Json)) (k : String) (d : Int) :
    Except String Int :=
  match fieldLookup kvs k with
  | some (.num n) => .ok n
  | some _ => .error (k ++ ": int type expected")
  | none => .ok d

/-- A `bool` field with a default. -/
def optBoolD (kvs : List (String × Json)) (k : String) (d : Bool) :
    Except String Bool :=
  match fieldLookup kvs k with
  | some (.bool b) => .ok b
  | some _ => .error (k ++ ": bool type expected")
  | none => .ok d

/-- Parse one question object. -/
def questionOfJson (j : Json) : Except String QuestionCreate :=
  match j with
  | .obj kvs => do
    let question_text ← reqStr kvs "question_text"
    let option_a ← reqStr kvs "option_a"
    let option_b ← reqStr kvs "option_b"
    let option_c ← reqStr kvs "option_c"
    let option_d ← reqStr kvs "option_d"
    let correct_option ← reqStr kvs "correct_option"
    pure ⟨question_text, option_a, option_b, option_c, option_d, correct_option⟩
  | _ => .error "question: dict type expected"

/-- The `questions` field: missing means the `[]` default. -/
def optQuestions (kvs : List (String × Json)) :
    Except String (List QuestionCreate) :=
  match fieldLookup kvs "questions" with
  | some (.arr xs) => xs.mapM questionOfJson
  | some _ => .error "questions: list type expected"
  | none => .ok []

/-- Model of `QuizCreate(**quiz_data)`: `title` and `description` are the
only required fields; every other field falls back to its declared default
when absent.  Unknown keys are ignored, as pydantic does by default. -/
def quizCreateOfJson (kvs : List (String × Json)) : Except String QuizCreate := do
  let title ← reqStr kvs "title"
  let description ← reqStr kvs "description"
  let is_trivia ← optBoolD kvs "is_trivia" false
  let topic ← optStrOpt kvs "topic"
  let start_time ← optStrOpt kvs "start_time"
  let end_time ← optStrOpt kvs "end_time"
  let duration ← optIntD kvs "duration" 60
  let positive_mark ← optIntD kvs "positive_mark" 1
  let negative_mark ← optIntD kvs "negative_mark" 0
  let navigation_type ← optStrD kvs "navigation_type" "omni"
  let tab_switch_exit ← optBoolD kvs "tab_switch_exit" true
  let difficulty ← optStrOpt kvs "difficulty"
  let questions ← optQuestions kvs
  pure { title, description, is_trivia, topic, start_time, end_time, duration,
         positive_mark, negative_mark, navigation_type, tab_switch_exit,
         difficulty, questions }

/-! ### The intent router (`generate_quiz` after sanitization) -/

/-- The JSON body returned by `POST /generate` (fields absent from a given
branch are `none`).  `message` is kept as a JSON value because the non-quiz
branch forwards whatever the oracle supplied under `"message"`. -/
structure ApiResponse where
  success : Bool
  intent : String
  message : Json
  quiz_id : Option String := none
  quiz_title : Option String := none
  questions_generated : Option Nat := none
  redirect_message : Option String := none
  parsed_from : Option String := none
  is_quiz_request : Bool

/-- `response_json.get("intent") == tag` for a string tag. -/
def intentIs (j : Json) (tag : String) : Bool :=
  match j with
  | .obj kvs =>
    match fieldLookup kvs "intent" with
    | some (.str s) => s == tag
    | _ => false
  | _ => false

/-- `response_json.get("message", fallback)` — the fallback applies only
when the key is absent. -/
def getMessageOr (j : Json) (fallback : String) : Json :=
  match j with
  | .obj kvs =>
    match fieldLookup kvs "message" with
    | some v => v
    | none => .str fallback
  | _ => .str fallback

/-- The members of an object payload. -/
def jMembers : Json → List (String × Json)
  | .obj kvs => kvs
  | _ => []

/-- Fallback message of the non-quiz branch (line 325). -/
def nonQuizFallback : String :=
  "I\x27m a Quiz Creation Bot. Please describe the quiz you want to create."

/-- Message of the unclear branch (line 356). -/
def unclearMessage : String :=
  "I\x27m a Quiz Creation Bot. I can only help you create quizzes. Please describe the quiz you want to create, for example: \x27Create a quiz on Python programming with 10 questions\x27."

/-- The quiz-creation path after the question-count clamp: persist and
shape the success response. -/
def quizPath (env : Env) (promptText : String) (q : QuizCreate) :
    Except HTTPError ApiResponse × List Write :=
  match createQuizInternal env q with
  | (.error ex, log) => (.error ex, log)
  | (.ok r, log) =>
    (.ok { success := true
           intent := "quiz_creation"
           message := .str ("Quiz \x27" ++ r.title ++
             "\x27 created successfully! You can view it in your My Quizzes page.")
           quiz_id := some r.quiz_id
           quiz_title := some r.title
           questions_generated := some q.questions.length
           redirect_message := some "Check your quiz in /my-quizzes page"
           parsed_from := some promptText
           is_quiz_request := true }, log)

/-- Lines 321-358 of `generate_quiz`: route the sanitized oracle payload.
A pydantic parse failure is an uncaught non-HTTP exception, reported by the
outer handler as a 500.  Paired with the log of attempted store writes. -/
def handleResponse (env : Env) (promptText : String) (j : Json) :
    Except HTTPError ApiResponse × List Write :=
  if intentIs j "non_quiz" then
    (.ok { success := false
           intent := "non_quiz"
           message := getMessageOr j nonQuizFallback
           is_quiz_request := false }, [])
  else if intentIs j "quiz_creation" then
    match quizCreateOfJson ((jMembers j).filter (fun kv => !(kv.1 == "intent"))) with
    | .error e => (.error ⟨500, "Quiz generation failed: " ++ e⟩, [])
    | .ok q0 =>
      if q0.questions.length < 1 then
        (.error ⟨400, "Quiz must have at least 1 question"⟩, [])
      else if q0.questions.length > 20 then
        quizPath env promptText { q0 with questions := q0.questions.take 20 }
      else quizPath env promptText q0
  else
    (.ok { success := false
           intent := "unclear"
           message := .str unclearMessage
           is_quiz_request := false }, [])

/-! ### Helper lemmas -/

/-- `validateAll` finds the first failing question at its 1-based offset. -/
theorem validateAll_append (pre : List QuestionCreate) :
    ∀ (i : Nat) (q : QuestionCreate) (rest : List QuestionCreate) (m : String),
    (∀ p ∈ pre, validate_lengths p = none) → validate_lengths q = some m →
    validateAll (pre ++ q :: rest) i = some (pre.length + i, m) := by
  induction pre with
  | nil =>
    intro i q rest m _ hq
    simp [validateAll, hq]
  | cons p pre ih =>
    intro i q rest m hpre hq
    have hp : validate_lengths p = none := hpre p (by simp)
    have hrec := ih (i + 1) q rest m (fun x hx => hpre x (by simp [hx])) hq
    have harith : pre.length + (i + 1) = pre.length + 1 + i := by omega
    simp only [List.cons_append, validateAll, hp, hrec, harith, List.length_cons,
      List.append_eq]

/-- Every write produced by the question loop is a question write. -/
theorem insertQuestionsLoop_writes (env : Env) (qid : String) (mark : Int) :
    ∀ (qs : List QuestionCreate) (w : Write),
    w ∈ (insertQuestionsLoop env qid mark qs).2 → ∃ qr, w = Write.question qr := by
  intro qs
  induction qs with
  | nil => intro w hw; simp [insertQuestionsLoop] at hw
  | cons q rest ih =>
    intro w hw
    rw [insertQuestionsLoop] at hw
    cases h : env.insertQuestionOutcome (mkQuestionRow qid mark q) with
    | some msg =>
      rw [h] at hw
      simp at hw
      exact ⟨mkQuestionRow qid mark q, hw⟩
    | none =>
      rw [h] at hw
      simp at hw
      rcases hw with hw | hw
      · exact ⟨mkQuestionRow qid mark q, hw⟩
      · exact ih w hw

/-- With a truthy `start_time`, `resolveTimes` never reads `end_time`. -/
theorem resolveTimes_start_only (env : Env) (d : Int) (st et1 et2 : Option String)
    (h : truthy st = true) :
    resolveTimes env d st et1 = resolveTimes env d st et2 := by
  unfold resolveTimes
  rw [if_pos h, if_pos h]

/-! ### Claim theorems -/

/-- **C5.** Validator contract: a `QuestionCreate` whose five text fields are
within bounds and whose `correct_option` is one of `a`/`b`/`c`/`d` passes
validation; each out-of-bound field (respectively a bad `correct_option`)
fails with the message naming the first violated constraint in check order;
over a question list, the first failing question is reported with its
1-based index, which `create_quiz_internal` embeds in the surfaced detail. -/
theorem C5_validator_contract :
    (∀ q : QuestionCreate,
      q.question_text.length ≤ 500 → q.option_a.length ≤ 200 →
      q.option_b.length ≤ 200 → q.option_c.length ≤ 200 → q.option_d.length ≤ 200 →
      (q.correct_option = "a" ∨ q.correct_option = "b" ∨ q.correct_option = "c" ∨
        q.correct_option = "d") →
      validate_lengths q = none) ∧
    (∀ q : QuestionCreate, q.question_text.length > 500 →
      validate_lengths q = some "Question text cannot exceed 500 characters") ∧
    (∀ q : QuestionCreate, q.question_text.length ≤ 500 → q.option_a.length > 200 →
      validate_lengths q = some "Option A cannot exceed 200 characters") ∧
    (∀ q : QuestionCreate, q.question_text.length ≤ 500 → q.option_a.length ≤ 200 →
      q.option_b.length > 200 →
      validate_lengths q = some "Option B cannot exceed 200 characters") ∧
    (∀ q : QuestionCreate, q.question_text.length ≤ 500 → q.option_a.length ≤ 200 →
      q.option_b.length ≤ 200 → q.option_c.length > 200 →
      validate_lengths q = some "Option C cannot exceed 200 characters") ∧
    (∀ q : QuestionCreate, q.question_text.length ≤ 500 → q.option_a.length ≤ 200 →
      q.option_b.length ≤ 200 → q.option_c.length ≤ 200 → q.option_d.length > 200 →
      validate_lengths q = some "Option D cannot exceed 200 characters") ∧
    (∀ q : QuestionCreate, q.question_text.length ≤ 500 → q.option_a.length ≤ 200 →
      q.option_b.length ≤ 200 → q.option_c.length ≤ 200 → q.option_d.length ≤ 200 →
      ¬(q.correct_option = "a" ∨ q.correct_option = "b" ∨ q.correct_option = "c" ∨
        q.correct_option = "d") →
      validate_lengths q =
        some "Correct option must be \x27a\x27, \x27b\x27, \x27c\x27, or \x27d\x27") ∧
    (∀ (pre : List QuestionCreate) (q : QuestionCreate) (rest : List QuestionCreate)
      (m : String),
      (∀ p ∈ pre, validate_lengths p = none) → validate_lengths q = some m →
      validateAll (pre ++ q :: rest) 1 = some (pre.length + 1, m)) ∧
    (∀ (env : Env) (qd : QuizCreate) (i : Nat) (m : String),
      1 ≤ qd.questions.length → qd.questions.length ≤ 50 →
      validateAll qd.questions 1 = some (i, m) →
      createQuizInternal env qd =
        (.error ⟨400, "Question " ++ toString i ++ ": " ++ m⟩, [])) := by
  refine ⟨?_, ?_, ?_, ?_, ?_, ?_, ?_, ?_, ?_⟩
  · intro q h1 h2 h3 h4 h5 hd
    unfold validate_lengths
    rw [if_neg (by omega), if_neg (by omega), if_neg (by omega), if_neg (by omega),
      if_neg (by omega)]
    rcases hd with h | h | h | h <;> rw [if_neg (by simp [h])]
  · intro q h
    unfold validate_lengths
    rw [if_pos h]
  · intro q h1 h
    unfold validate_lengths
    rw [if_neg (by omega), if_pos h]
  · intro q h1 h2 h
    unfold validate_lengths
    rw [if_neg (by omega), if_neg (by omega), if_pos h]
  · intro q h1 h2 h3 h
    unfold validate_lengths
    rw [if_neg (by omega), if_neg (by omega), if_neg (by omega), if_pos h]
  · intro q h1 h2 h3 h4 h
    unfold validate_lengths
    rw [if_neg (by omega), if_neg (by omega), if_neg (by omega), if_neg (by omega),
      if_pos h]
  · intro q h1 h2 h3 h4 h5 hd
    unfold validate_lengths
    rw [if_neg (by omega), if_neg (by omega), if_neg (by omega), if_neg (by omega),
      if_neg (by omega), if_pos ?_]
    simp only [Bool.not_eq_true', List.any_cons, List.any_nil, Bool.or_false,
      Bool.or_eq_false_iff, beq_eq_false_iff_ne, ne_eq]
    exact ⟨fun hh => hd (Or.inl hh.symm), fun hh => hd (Or.inr (Or.inl hh.symm)),
      fun hh => hd (Or.inr (Or.inr (Or.inl hh.symm))),
      fun hh => hd (Or.inr (Or.inr (Or.inr hh.symm)))⟩
  · intro pre q rest m hpre hq
    exact validateAll_append pre 1 q rest m hpre hq
  · intro env qd i m h1 h50 hva
    unfold createQuizInternal
    rw [if_neg (by omega), if_neg (by omega), hva]

/-- **C5 witness.** Concrete instantiations of the validator contract. -/
theorem C5_validator_witness :
    validate_lengths ⟨"Is water wet?", "yes", "no", "maybe", "unsure", "a"⟩ = none ∧
    validate_lengths ⟨String.mk (List.replicate 501 'x'), "a", "b", "c", "d", "a"⟩ =
      some "Question text cannot exceed 500 characters" ∧
    validateAll ([⟨"ok", "a", "b", "c", "d", "b"⟩] ++
       ⟨"bad", "a", "b", "c", "d", "e"⟩ :: []) 1 =
      some (2, "Correct option must be \x27a\x27, \x27b\x27, \x27c\x27, or \x27d\x27") := by
  refine ⟨?_, ?_, ?_⟩
  · exact C5_validator_contract.1 _ (by decide) (by decide) (by decide) (by decide)
      (by decide) (Or.inl rfl)
  · exact C5_validator_contract.2.1 _ (by set_option maxRecDepth 8000 in decide)
  · have h := C5_validator_contract.2.2.2.2.2.2.2.1
      [⟨"ok", "a", "b", "c", "d", "b"⟩] ⟨"bad", "a", "b", "c", "d", "e"⟩ []
      "Correct option must be \x27a\x27, \x27b\x27, \x27c\x27, or \x27d\x27"
      (by intro p hp; simp at hp; subst hp; decide) (by decide)
    simpa using h

/-- **C8.** Every quiz record this pipeline hands to the store has
`is_trivia = False`, `topic = None`, `difficulty = None`, `popularity = 0`
and `is_active = True`, whatever the parsed `QuizCreate` supplied. -/
theorem C8_persisted_invariants :
    ∀ (env : Env) (qd : QuizCreate) (r : QuizRow),
    Write.quiz r ∈ (createQuizInternal env qd).2 →
    r.is_trivia = false ∧ r.topic = none ∧ r.difficulty = none ∧
      r.popularity = 0 ∧ r.is_active = true := by
  intro env qd r h
  have hrow : r = mkQuizRow env qd
      ((resolveTimes env qd.duration qd.start_time qd.end_time).toOption.getD
        (none, none)).1
      ((resolveTimes env qd.duration qd.start_time qd.end_time).toOption.getD
        (none, none)).2 ∨ False := by
    unfold createQuizInternal at h
    split at h
    · simp at h
    · split at h
      · simp at h
      · split at h
        · simp at h
        · split at h
          · simp at h
          · rename_i stet hres
            split at h
            · simp at h
              left
              rw [h, hres]
              rfl
            · split at h <;>
              · simp at h
                rcases h with h | h
                · left
                  rw [h, hres]
                  rfl
                · rcases insertQuestionsLoop_writes env env.newId qd.positive_mark
                    qd.questions _ h with ⟨qr, hqr⟩
                  cases hqr
  rcases hrow with hrow | hfalse
  · subst hrow
    exact ⟨rfl, rfl, rfl, rfl, rfl⟩
  · exact absurd hfalse (by simp)

/-- **C8 witness.** A concrete run whose quiz write shows the hard-coded
fields even though the input set `is_trivia`, `topic` and `difficulty`. -/
theorem C8_persisted_invariants_witness :
    (mkQuizRow ⟨0, 0, 0, "quiz-1", "user-1", fun _ => none, fun _ => none⟩
      { title := "T", description := "D", is_trivia := true, topic := some "cars",
        difficulty := some "hard",
        questions := [⟨"q", "a", "b", "c", "d", "a"⟩] } none none).is_trivia = false ∧
    (mkQuizRow ⟨0, 0, 0, "quiz-1", "user-1", fun _ => none, fun _ => none⟩
      { title := "T", description := "D", is_trivia := true, topic := some "cars",
        difficulty := some "hard",
        questions := [⟨"q", "a", "b", "c", "d", "a"⟩] } none none).topic = none ∧
    (mkQuizRow ⟨0, 0, 0, "quiz-1", "user-1", fun _ => none, fun _ => none⟩
      { title := "T", description := "D", is_trivia := true, topic := some "cars",
        difficulty := some "hard",
        questions := [⟨"q", "a", "b", "c", "d", "a"⟩] } none none).difficulty = none ∧
    (mkQuizRow ⟨0, 0, 0, "quiz-1", "user-1", fun _ => none, fun _ => none⟩
      { title := "T", description := "D", is_trivia := true, topic := some "cars",
        difficulty := some "hard",
        questions := [⟨"q", "a", "b", "c", "d", "a"⟩] } none none).popularity = 0 ∧
    (mkQuizRow ⟨0, 0, 0, "quiz-1", "user-1", fun _ => none, fun _ => none⟩
      { title := "T", description := "D", is_trivia := true, topic := some "cars",
        difficulty := some "hard",
        questions := [⟨"q", "a", "b", "c", "d", "a"⟩] } none none).is_active = true :=
  C8_persisted_invariants
    ⟨0, 0, 0, "quiz-1", "user-1", fun _ => none, fun _ => none⟩
    { title := "T", description := "D", is_trivia := true, topic := some "cars",
      difficulty := some "hard",
      questions := [⟨"q", "a", "b", "c", "d", "a"⟩] }
    (mkQuizRow ⟨0, 0, 0, "quiz-1", "user-1", fun _ => none, fun _ => none⟩
      { title := "T", description := "D", is_trivia := true, topic := some "cars",
        difficulty := some "hard",
        questions := [⟨"q", "a", "b", "c", "d", "a"⟩] } none none)
    (by decide)

/-- **C9.** When both `start_time` and `end_time` are supplied, the start
branch wins: the supplied `end_time` never influences the outcome, and on
success the resolved end is recomputed as start plus duration. -/
theorem C9_start_precedence :
    ∀ (env : Env) (qd : QuizCreate) (et : Option String),
    truthy qd.start_time = true →
    createQuizInternal env { qd with end_time := et } = createQuizInternal env qd ∧
    (∀ a b, resolveTimes env qd.duration qd.start_time qd.end_time = .ok (a, b) →
      ∃ dt, pyFromIso (replaceZ (qd.start_time.getD "")) = some dt ∧
        a = some (fmtIST (toUtcUs env.sysTz dt)) ∧
        b = some (fmtIST (toUtcUs env.sysTz dt + qd.duration * 60000000))) := by
  intro env qd et h
  constructor
  · obtain ⟨tt, dd, iv, tp, st, ee, du, pm, nm, nv, ts, di, qs⟩ := qd
    unfold createQuizInternal
    dsimp only
    rw [resolveTimes_start_only env du st et ee h]
    rfl
  · intro a b hres
    unfold resolveTimes at hres
    rw [if_pos h] at hres
    cases hp : pyFromIso (replaceZ (qd.start_time.getD "")) with
    | none => rw [hp] at hres; cases hres
    | some dt =>
      rw [hp] at hres
      dsimp only at hres
      by_cases hle : toUtcUs env.sysTz dt ≤ env.nowUs
      · rw [if_pos hle] at hres; cases hres
      · rw [if_neg hle] at hres
        refine ⟨dt, rfl, ?_, ?_⟩ <;> cases hres <;> rfl

/-- **C9 witness.** Concrete run with both bounds supplied: the end bound is
ignored and recomputed. -/
theorem C9_start_precedence_witness :
    createQuizInternal ⟨0, 0, 0, "quiz-1", "user-1", fun _ => none, fun _ => none⟩
      { title := "T", description := "D",
        start_time := some "2026-03-01T10:00:00Z",
        end_time := some "2030-01-01T00:00:00+05:30",
        questions := [⟨"q", "a", "b", "c", "d", "a"⟩] } =
    createQuizInternal ⟨0, 0, 0, "quiz-1", "user-1", fun _ => none, fun _ => none⟩
      { title := "T", description := "D",
        start_time := some "2026-03-01T10:00:00Z",
        questions := [⟨"q", "a", "b", "c", "d", "a"⟩] } := by
  have h := (C9_start_precedence
    ⟨0, 0, 0, "quiz-1", "user-1", fun _ => none, fun _ => none⟩
    { title := "T", description := "D",
      start_time := some "2026-03-01T10:00:00Z",
      questions := [⟨"q", "a", "b", "c", "d", "a"⟩] }
    (some "2030-01-01T00:00:00+05:30") (by decide)).1
  exact h

/-- The generic persistence failure detail never equals the duplicate-title
detail (their first characters differ). -/
theorem failDetail_ne_dupDetail (msg : String) :
    ("Failed to create quiz: " ++ msg) ≠
      "A quiz with this title already exists. Please choose a different title." := by
  intro h
  have h2 := congrArg String.data h
  rw [String.data_append] at h2
  have hF : "Failed to create quiz: ".data = 'F' :: "ailed to create quiz: ".data := rfl
  have hA : "A quiz with this title already exists. Please choose a different title.".data
      = 'A' :: " quiz with this title already exists. Please choose a different title.".data :=
    rfl
  rw [hF, hA, List.cons_append, List.cons.injEq] at h2
  exact absurd h2.1 (by decide)

/-- **C4 counterexample.** The claim, read as classifying on the patterns
`duplicate`/`unique`, is false: the store message `"duplicate entry"`
contains `"duplicate"` (and not `"unique"`), yet the code classifies it as
a generic persistence failure, because its actual test is the longer
case-sensitive pattern `"duplicate key value"`. -/
theorem C4_persister_classification_counterexample :
    containsSub (lowerStr "duplicate entry") "duplicate" = true ∧
    containsSub (lowerStr "duplicate entry") "unique" = false ∧
    classifyStoreError "duplicate entry" =
      ⟨400, "Failed to create quiz: duplicate entry"⟩ ∧
    (createQuizInternal
      ⟨0, 0, 0, "quiz-1", "user-1", fun _ => some "duplicate entry", fun _ => none⟩
      { title := "T", description := "D",
        questions := [⟨"q", "a", "b", "c", "d", "a"⟩] }).1 =
      .error ⟨400, "Failed to create quiz: duplicate entry"⟩ :=
  ⟨by decide, by decide, by decide, rfl⟩

/-- **C4 (amended).** Persister error classification: a store failure is
reported as the duplicate-title error exactly when its text contains
`"duplicate key value"` (case-sensitively) or `"unique"`
(case-insensitively); every other store failure is reported as the generic
persistence error embedding the store's message.  Both the quiz insert and
the question-insert loop route their failure message through this
classification. -/
theorem C4_persister_classification_amended :
    (∀ msg : String,
      classifyStoreError msg =
        ⟨400, "A quiz with this title already exists. Please choose a different title."⟩ ↔
      (containsSub msg "duplicate key value" = true ∨
        containsSub (lowerStr msg) "unique" = true)) ∧
    (∀ msg : String,
      containsSub msg "duplicate key value" = false →
      containsSub (lowerStr msg) "unique" = false →
      classifyStoreError msg = ⟨400, "Failed to create quiz: " ++ msg⟩) ∧
    (∀ (env : Env) (qd : QuizCreate) (msg : String)
      (stet : Option String × Option String),
      1 ≤ qd.questions.length → qd.questions.length ≤ 50 →
      validateAll qd.questions 1 = none →
      resolveTimes env qd.duration qd.start_time qd.end_time = .ok stet →
      env.insertQuizOutcome (mkQuizRow env qd stet.1 stet.2) = some msg →
      createQuizInternal env qd =
        (.error (classifyStoreError msg), [Write.quiz (mkQuizRow env qd stet.1 stet.2)])) ∧
    (∀ (env : Env) (qd : QuizCreate) (msg : String)
      (stet : Option String × Option String),
      1 ≤ qd.questions.length → qd.questions.length ≤ 50 →
      validateAll qd.questions 1 = none →
      resolveTimes env qd.duration qd.start_time qd.end_time = .ok stet →
      env.insertQuizOutcome (mkQuizRow env qd stet.1 stet.2) = none →
      (insertQuestionsLoop env env.newId qd.positive_mark qd.questions).1 = some msg →
      createQuizInternal env qd =
        (.error (classifyStoreError msg),
         Write.quiz (mkQuizRow env qd stet.1 stet.2) ::
           (insertQuestionsLoop env env.newId qd.positive_mark qd.questions).2)) := by
  refine ⟨?_, ?_, ?_, ?_⟩
  · intro msg
    constructor
    · intro hcls
      by_contra hcon
      rw [not_or] at hcon
      obtain ⟨hA, hB⟩ := hcon
      rw [Bool.not_eq_true] at hA hB
      unfold classifyStoreError at hcls
      rw [if_neg (by simp [hA, hB])] at hcls
      rw [HTTPError.mk.injEq] at hcls
      exact absurd hcls.2 (failDetail_ne_dupDetail msg)
    · intro hor
      unfold classifyStoreError
      rcases hor with h | h <;> rw [if_pos (by simp [h])]
  · intro msg h1 h2
    unfold classifyStoreError
    rw [if_neg (by simp [h1, h2])]
  · intro env qd msg stet h1 h50 hva hres hins
    unfold createQuizInternal
    rw [if_neg (by omega), if_neg (by omega), hva, hres]
    dsimp only
    rw [hins]
  · intro env qd msg stet h1 h50 hva hres hins hloop
    unfold createQuizInternal
    rw [if_neg (by omega), if_neg (by omega), hva, hres]
    dsimp only
    rw [hins]
    dsimp only
    rw [hloop]

/-- **C4 witness.** Concrete store failures on both sides of the amended
classification, and a concrete failing quiz insert routed through it. -/
theorem C4_persister_classification_witness :
    classifyStoreError "violates unique constraint" =
      ⟨400, "A quiz with this title already exists. Please choose a different title."⟩ ∧
    classifyStoreError "connection reset" =
      ⟨400, "Failed to create quiz: " ++ "connection reset"⟩ ∧
    createQuizInternal
      ⟨0, 0, 0, "quiz-1", "user-1", fun _ => some "connection reset", fun _ => none⟩
      { title := "T", description := "D",
        questions := [⟨"q", "a", "b", "c", "d", "a"⟩] } =
      (.error (classifyStoreError "connection reset"),
       [Write.quiz (mkQuizRow
         ⟨0, 0, 0, "quiz-1", "user-1", fun _ => some "connection reset", fun _ => none⟩
         { title := "T", description := "D",
           questions := [⟨"q", "a", "b", "c", "d", "a"⟩] } none none)]) := by
  refine ⟨?_, ?_, ?_⟩
  · exact (C4_persister_classification_amended.1 "violates unique constraint").mpr
      (Or.inr (by decide))
  · exact C4_persister_classification_amended.2.1 "connection reset"
      (by decide) (by decide)
  · exact C4_persister_classification_amended.2.2.1 _ _ "connection reset" (none, none)
      (by decide) (by decide) (by decide) (by decide) (by decide)

/-- **C7.** Rejection frame property: when the sanitized payload routes to
the non-quiz branch, or to neither recognised intent (the `unclear`
branch), the pipeline returns `is_quiz_request = false` with the
classification's message and attempts no store write. -/
theorem C7_rejection_frame :
    ∀ (env : Env) (promptText : String) (j : Json),
    (intentIs j "non_quiz" = true →
      handleResponse env promptText j =
        (.ok { success := false, intent := "non_quiz",
               message := getMessageOr j nonQuizFallback,
               is_quiz_request := false }, [])) ∧
    (intentIs j "non_quiz" = false → intentIs j "quiz_creation" = false →
      handleResponse env promptText j =
        (.ok { success := false, intent := "unclear",
               message := .str unclearMessage,
               is_quiz_request := false }, [])) := by
  intro env promptText j
  constructor
  · intro h
    unfold handleResponse
    rw [if_pos h]
  · intro h1 h2
    unfold handleResponse
    rw [if_neg (by simp [h1]), if_neg (by simp [h2])]

/-- **C7 witness.** A non-quiz oracle reply and an unrecognised one, both
with an empty write log. -/
theorem C7_rejection_frame_witness :
    handleResponse ⟨0, 0, 0, "quiz-1", "user-1", fun _ => none, fun _ => none⟩
      "Hello" (Json.obj [("intent", .str "non_quiz"), ("message", .str "hi")]) =
      (.ok { success := false, intent := "non_quiz", message := .str "hi",
             is_quiz_request := false }, []) ∧
    handleResponse ⟨0, 0, 0, "quiz-1", "user-1", fun _ => none, fun _ => none⟩
      "Hello" (Json.obj [("intent", .str "weird")]) =
      (.ok { success := false, intent := "unclear", message := .str unclearMessage,
             is_quiz_request := false }, []) :=
  ⟨(C7_rejection_frame _ "Hello" _).1 (by rfl),
   (C7_rejection_frame _ "Hello" _).2 (by rfl) (by rfl)⟩

/-- **C10.** Parsing a `quiz_creation` payload requires only `title` and
`description`; the remaining fields take their declared defaults
(`duration = 60`, `positive_mark = 1`, `negative_mark = 0`,
`navigation_type = "omni"`, `tab_switch_exit = true`, `questions = []`),
and a payload with no `questions` field surfaces as the empty-quiz error
rather than a schema error. -/
theorem C10_schema_defaults :
    ∀ (env : Env) (promptText t d : String),
    quizCreateOfJson [("title", .str t), ("description", .str d)] =
      .ok { title := t, description := d, is_trivia := false, topic := none,
            start_time := none, end_time := none, duration := 60,
            positive_mark := 1, negative_mark := 0, navigation_type := "omni",
            tab_switch_exit := true, difficulty := none, questions := [] } ∧
    handleResponse env promptText
      (Json.obj [("intent", .str "quiz_creation"), ("title", .str t),
        ("description", .str d)]) =
      (.error ⟨400, "Quiz must have at least 1 question"⟩, []) := by
  intro env promptText t d
  exact ⟨rfl, rfl⟩

/-- A payload routed to one intent tag is not routed to a different tag. -/
theorem intentIs_unique (j : Json) (t1 t2 : String)
    (h : intentIs j t1 = true) (hne : t1 ≠ t2) : intentIs j t2 = false := by
  unfold intentIs at h ⊢
  cases j with
  | obj kvs =>
    dsimp only at h ⊢
    revert h
    cases fieldLookup kvs "intent" with
    | none => intro h; exact Bool.noConfusion h
    | some v =>
      intro h
      cases v with
      | str s =>
        have hs : s = t1 := by simpa using h
        subst hs
        simpa using hne
      | null => exact Bool.noConfusion h
      | bool b => exact Bool.noConfusion h
      | num n => exact Bool.noConfusion h
      | bignum s => exact Bool.noConfusion h
      | arr xs => exact Bool.noConfusion h
      | obj ms => exact Bool.noConfusion h
  | null => rfl
  | bool b => rfl
  | num n => rfl
  | bignum s => rfl
  | str s => rfl
  | arr xs => rfl

/-- **C3.** Router post-processing for a `quiz_creation` intent: an empty
parsed question list fails with the empty-quiz error and no writes; a list
longer than 20 is silently clamped to its first 20 questions — the pipeline
behaves exactly as if the oracle had produced those 20 — and a successful
response reports `questions_generated = 20`. -/
theorem C3_router_postprocessing :
    ∀ (env : Env) (promptText : String) (j : Json) (q0 : QuizCreate),
    intentIs j "quiz_creation" = true →
    quizCreateOfJson ((jMembers j).filter (fun kv => !(kv.1 == "intent"))) = .ok q0 →
    (q0.questions = [] →
      handleResponse env promptText j =
        (.error ⟨400, "Quiz must have at least 1 question"⟩, [])) ∧
    (q0.questions.length > 20 →
      handleResponse env promptText j =
        quizPath env promptText { q0 with questions := q0.questions.take 20 } ∧
      ({ q0 with questions := q0.questions.take 20 } : QuizCreate).questions.length = 20 ∧
      (∀ r log,
        quizPath env promptText { q0 with questions := q0.questions.take 20 } =
          (.ok r, log) →
        r.questions_generated = some 20)) := by
  intro env promptText j q0 hint hparse
  have hnq : intentIs j "non_quiz" = false :=
    intentIs_unique j "quiz_creation" "non_quiz" hint (by decide)
  constructor
  · intro hempty
    unfold handleResponse
    rw [if_neg (by simp [hnq]), if_pos hint, hparse]
    dsimp only
    rw [if_pos (by simp [hempty])]
  · intro hlen
    refine ⟨?_, ?_, ?_⟩
    · unfold handleResponse
      rw [if_neg (by simp [hnq]), if_pos hint, hparse]
      dsimp only
      rw [if_neg (by omega), if_pos hlen]
    · simp only [List.length_take]
      omega
    · intro r log hq
      unfold quizPath at hq
      rcases hcq : createQuizInternal env { q0 with questions := q0.questions.take 20 }
        with ⟨res, lg⟩
      rw [hcq] at hq
      cases res with
      | error ex => simp at hq
      | ok cr =>
        simp only [Prod.mk.injEq, Except.ok.injEq] at hq
        rw [← hq.1]
        simp only [List.length_take]
        congr 1
        omega

/-- **C3 witness.** A 0-question payload fails with the empty-quiz error;
a 25-question payload runs exactly as its 20-question truncation and
reports 20 questions generated. -/
theorem C3_router_postprocessing_witness :
    handleResponse ⟨0, 0, 0, "quiz-1", "user-1", fun _ => none, fun _ => none⟩ "p"
      (Json.obj [("intent", .str "quiz_creation"), ("title", .str "T"),
        ("description", .str "D"), ("questions", .arr [])]) =
      (.error ⟨400, "Quiz must have at least 1 question"⟩, []) ∧
    handleResponse ⟨0, 0, 0, "quiz-1", "user-1", fun _ => none, fun _ => none⟩ "p"
      (Json.obj [("intent", .str "quiz_creation"), ("title", .str "T"),
        ("description", .str "D"),
        ("questions", .arr (List.replicate 25 (Json.obj [("question_text", .str "q"),
          ("option_a", .str "a"), ("option_b", .str "b"), ("option_c", .str "c"),
          ("option_d", .str "d"), ("correct_option", .str "a")])))]) =
      quizPath ⟨0, 0, 0, "quiz-1", "user-1", fun _ => none, fun _ => none⟩ "p"
        { title := "T", description := "D",
          questions := List.replicate 20 ⟨"q", "a", "b", "c", "d", "a"⟩ } := by
  constructor
  · exact (C3_router_postprocessing
      ⟨0, 0, 0, "quiz-1", "user-1", fun _ => none, fun _ => none⟩ "p"
      (Json.obj [("intent", .str "quiz_creation"), ("title", .str "T"),
        ("description", .str "D"), ("questions", .arr [])])
      { title := "T", description := "D", questions := [] }
      (by decide) (by decide)).1 rfl
  · have h := ((C3_router_postprocessing
      ⟨0, 0, 0, "quiz-1", "user-1", fun _ => none, fun _ => none⟩ "p"
      (Json.obj [("intent", .str "quiz_creation"), ("title", .str "T"),
        ("description", .str "D"),
        ("questions", .arr (List.replicate 25 (Json.obj [("question_text", .str "q"),
          ("option_a", .str "a"), ("option_b", .str "b"), ("option_c", .str "c"),
          ("option_d", .str "d"), ("correct_option", .str "a")])))])
      { title := "T", description := "D",
        questions := List.replicate 25 ⟨"q", "a", "b", "c", "d", "a"⟩ }
      (by decide) (by decide)).2 (by decide)).1
    rw [h]
    rfl

/-- The spec's `InvalidSchedule` failure: the four scheduling rejections of
`create_quiz_internal`. -/
def isInvalidSchedule (e : HTTPError) : Bool :=
  e.status == 400 &&
    (e.detail == "Invalid start_time format. Use ISO format." ||
     e.detail == "Start time must be in the future for scheduled quizzes" ||
     e.detail == "Invalid end_time format. Use ISO format." ||
     e.detail == "Quiz duration too long for the specified end time")

/-- **C2.** Time Resolver contract: with at most one bound supplied, a
successful resolution yields both bounds absent or both present as IST
ISO-8601 strings with end = start + duration; a supplied `start_time` must
parse and be strictly after now (else `InvalidSchedule`); a supplied
`end_time` yields start = end − duration, which must be strictly after now
(else `InvalidSchedule`); with neither supplied both stay unset. -/
theorem C2_time_resolver_contract :
    ∀ (env : Env) (d : Int) (st et : Option String),
    ¬(truthy st = true ∧ truthy et = true) →
    (∀ a, resolveTimes env d st et = .ok a →
      (a.1 = none ∧ a.2 = none) ∨
      (∃ su : Int, env.nowUs < su ∧
        a.1 = some (fmtIST su) ∧ a.2 = some (fmtIST (su + d * 60000000)))) ∧
    (truthy st = true →
      ((∃ dt, pyFromIso (replaceZ (st.getD "")) = some dt ∧
          env.nowUs < toUtcUs env.sysTz dt ∧
          resolveTimes env d st et =
            .ok (some (fmtIST (toUtcUs env.sysTz dt)),
                 some (fmtIST (toUtcUs env.sysTz dt + d * 60000000)))) ∨
       (∃ e, resolveTimes env d st et = .error e ∧ isInvalidSchedule e = true ∧
         (pyFromIso (replaceZ (st.getD "")) = none ∨
          ∃ dt, pyFromIso (replaceZ (st.getD "")) = some dt ∧
            toUtcUs env.sysTz dt ≤ env.nowUs)))) ∧
    (truthy st = false → truthy et = true →
      ((∃ dt, pyFromIso (replaceZ (et.getD "")) = some dt ∧
          env.nowUs < toUtcUs env.sysTz dt - d * 60000000 ∧
          resolveTimes env d st et =
            .ok (some (fmtIST (toUtcUs env.sysTz dt - d * 60000000)),
                 some (fmtIST (toUtcUs env.sysTz dt)))) ∨
       (∃ e, resolveTimes env d st et = .error e ∧ isInvalidSchedule e = true ∧
         (pyFromIso (replaceZ (et.getD "")) = none ∨
          ∃ dt, pyFromIso (replaceZ (et.getD "")) = some dt ∧
            toUtcUs env.sysTz dt - d * 60000000 ≤ env.nowUs)))) ∧
    (truthy st = false → truthy et = false →
      resolveTimes env d st et = .ok (none, none)) := by
  intro env d st et _
  refine ⟨?_, ?_, ?_, ?_⟩
  · intro a ha
    unfold resolveTimes at ha
    by_cases hst : truthy st = true
    · rw [if_pos hst] at ha
      cases hp : pyFromIso (replaceZ (st.getD "")) with
      | none => rw [hp] at ha; cases ha
      | some dt =>
        rw [hp] at ha
        dsimp only at ha
        by_cases hle : toUtcUs env.sysTz dt ≤ env.nowUs
        · rw [if_pos hle] at ha; cases ha
        · rw [if_neg hle] at ha
          cases ha
          exact Or.inr ⟨toUtcUs env.sysTz dt, by omega, rfl, rfl⟩
    · rw [if_neg hst] at ha
      by_cases het : truthy et = true
      · rw [if_pos het] at ha
        cases hp : pyFromIso (replaceZ (et.getD "")) with
        | none => rw [hp] at ha; cases ha
        | some dt =>
          rw [hp] at ha
          dsimp only at ha
          by_cases hle : toUtcUs env.sysTz dt - d * 60000000 ≤ env.nowUs
          · rw [if_pos hle] at ha; cases ha
          · rw [if_neg hle] at ha
            cases ha
            refine Or.inr ⟨toUtcUs env.sysTz dt - d * 60000000, by omega, rfl, ?_⟩
            have harith : toUtcUs env.sysTz dt - d * 60000000 + d * 60000000 =
                toUtcUs env.sysTz dt := by omega
            rw [harith]
      · rw [if_neg het] at ha
        cases ha
        exact Or.inl ⟨rfl, rfl⟩
  · intro hst
    unfold resolveTimes
    rw [if_pos hst]
    cases hp : pyFromIso (replaceZ (st.getD "")) with
    | none =>
      exact Or.inr ⟨_, rfl, by decide, Or.inl rfl⟩
    | some dt =>
      dsimp only
      by_cases hle : toUtcUs env.sysTz dt ≤ env.nowUs
      · rw [if_pos hle]
        exact Or.inr ⟨_, rfl, by decide, Or.inr ⟨dt, rfl, hle⟩⟩
      · rw [if_neg hle]
        exact Or.inl ⟨dt, rfl, by omega, rfl⟩
  · intro hst het
    unfold resolveTimes
    rw [if_neg (by simp [hst]), if_pos het]
    cases hp : pyFromIso (replaceZ (et.getD "")) with
    | none =>
      exact Or.inr ⟨_, rfl, by decide, Or.inl rfl⟩
    | some dt =>
      dsimp only
      by_cases hle : toUtcUs env.sysTz dt - d * 60000000 ≤ env.nowUs
      · rw [if_pos hle]
        exact Or.inr ⟨_, rfl, by decide, Or.inr ⟨dt, rfl, hle⟩⟩
      · rw [if_neg hle]
        exact Or.inl ⟨dt, rfl, by omega, rfl⟩
  · intro hst het
    unfold resolveTimes
    rw [if_neg (by simp [hst]), if_neg (by simp [het])]

set_option maxHeartbeats 1000000 in
/-- **C2 witness.** A future UTC start bound resolves to the IST pair with
end = start + 60 minutes; with neither bound supplied both stay unset. -/
theorem C2_time_resolver_witness :
    resolveTimes ⟨0, 0, 0, "quiz-1", "user-1", fun _ => none, fun _ => none⟩ 60
      (some "2026-03-01T10:00:00Z") none =
      .ok (some "2026-03-01T15:30:00+05:30", some "2026-03-01T16:30:00+05:30") ∧
    resolveTimes ⟨0, 0, 0, "quiz-1", "user-1", fun _ => none, fun _ => none⟩ 60
      none none = .ok (none, none) := by
  constructor
  · rcases (C2_time_resolver_contract
        ⟨0, 0, 0, "quiz-1", "user-1", fun _ => none, fun _ => none⟩ 60
        (some "2026-03-01T10:00:00Z") none
        (fun h => Bool.noConfusion h.2)).2.1 rfl with
      ⟨dt, hdt, _, hres⟩ | ⟨e, hres, _, _⟩
    · have hdt2 : (some dt : Option PyDateTime) = some ⟨1772359200000000, some 0⟩ :=
        hdt.symm.trans rfl
      injection hdt2 with hdt2
      subst hdt2
      rw [hres]
      rfl
    · exfalso
      have hok : resolveTimes
          ⟨0, 0, 0, "quiz-1", "user-1", fun _ => none, fun _ => none⟩
          60 (some "2026-03-01T10:00:00Z") none =
          .ok (some "2026-03-01T15:30:00+05:30", some "2026-03-01T16:30:00+05:30") := rfl
      rw [hok] at hres
      cases hres
  · exact (C2_time_resolver_contract
      ⟨0, 0, 0, "quiz-1", "user-1", fun _ => none, fun _ => none⟩ 60 none none
      (fun h => Bool.noConfusion h.2)).2.2.2 rfl rfl

/-! ### Brace-preservation of the cleaning pipeline

None of the cleaning steps (stripping, fence removal, parenthesis removal)
ever deletes a brace, so whether a `\{.*\}` span exists is decided by the
raw input alone.  We track this through the subsequence of braces
(`filter isBrace`). -/

/-- Whitespace characters are not braces. -/
theorem ws_not_brace : ∀ c : Char, isPyWS c = true → isBrace c = false := by
  intro c h
  by_contra hb
  rw [Bool.not_eq_false] at hb
  unfold isBrace at hb
  rw [Bool.or_eq_true] at hb
  rcases hb with hc | hc <;> rw [beq_iff_eq] at hc <;> subst hc <;>
    exact absurd h (by decide)

/-- A character matched case-insensitively against a letter of `json` is
not a brace. -/
theorem jch_not_brace (x t : Char) (ht : jch x t = true)
    (h1 : jch lbC t = false) (h2 : jch rbC t = false) : isBrace x = false := by
  by_contra hb
  rw [Bool.not_eq_false] at hb
  unfold isBrace at hb
  rw [Bool.or_eq_true] at hb
  rcases hb with hc | hc <;> rw [beq_iff_eq] at hc <;> subst hc
  · exact absurd ht (by rw [h1]; decide)
  · exact absurd ht (by rw [h2]; decide)

/-- Decompose a positive `ticks2` test. -/
theorem ticks2_decomp (rest : List Char) (h : ticks2 rest = true) :
    ∃ rest', rest = tkC :: tkC :: rest' := by
  cases rest with
  | nil => cases h
  | cons a r =>
    cases r with
    | nil => cases h
    | cons b r' =>
      unfold ticks2 at h
      rw [Bool.and_eq_true, beq_iff_eq, beq_iff_eq] at h
      exact ⟨r', by rw [h.1, h.2]⟩

/-- Decompose a positive `isJsonSeq` test. -/
theorem isJsonSeq_decomp (m : List Char) (h : isJsonSeq m = true) :
    ∃ a b c d m', m = a :: b :: c :: d :: m' ∧ jch a 'j' = true ∧
      jch b 's' = true ∧ jch c 'o' = true ∧ jch d 'n' = true := by
  cases m with
  | nil => cases h
  | cons a r1 =>
    cases r1 with
    | nil => cases h
    | cons b r2 =>
      cases r2 with
      | nil => cases h
      | cons c r3 =>
        cases r3 with
        | nil => cases h
        | cons d m' =>
          unfold isJsonSeq at h
          rw [Bool.and_eq_true, Bool.and_eq_true, Bool.and_eq_true] at h
          exact ⟨a, b, c, d, m', rfl, h.1.1.1, h.1.1.2, h.1.2, h.2⟩

/-- Dropping a non-brace head leaves the brace subsequence unchanged. -/
theorem filter_cons_not (a : Char) (l : List Char) (h : isBrace a = false) :
    (a :: l).filter isBrace = l.filter isBrace := by
  simp [List.filter_cons, h]

/-- `dropWhile` by a brace-free predicate preserves the brace subsequence. -/
theorem filter_dropWhile_not (p : Char → Bool)
    (hp : ∀ c, p c = true → isBrace c = false) :
    ∀ l : List Char, (l.dropWhile p).filter isBrace = l.filter isBrace := by
  intro l
  induction l with
  | nil => rfl
  | cons c r ih =>
    by_cases hc : p c = true
    · rw [List.dropWhile_cons, if_pos hc, ih, filter_cons_not c r (hp c hc)]
    · rw [List.dropWhile_cons, if_neg hc]

/-- `str.strip()` preserves the brace subsequence. -/
theorem filter_pstrip (l : List Char) :
    (pstrip l).filter isBrace = l.filter isBrace := by
  unfold pstrip
  rw [List.filter_reverse, filter_dropWhile_not isPyWS ws_not_brace,
    List.filter_reverse, List.reverse_reverse,
    filter_dropWhile_not isPyWS ws_not_brace]

/-- The fence scan preserves the brace subsequence: it only ever deletes
backticks and `json` letters. -/
theorem filter_fenceScanF : ∀ (f : Nat) (b : Bool) (l : List Char),
    l.length ≤ f → (fenceScanF f b l).filter isBrace = l.filter isBrace := by
  intro f
  induction f with
  | zero => intro b l _; rfl
  | succ f ih =>
    intro b l hlen
    cases l with
    | nil => rfl
    | cons c rest =>
      have hlen' : rest.length ≤ f := by simp [List.length_cons] at hlen; omega
      by_cases hcond : (c == tkC && ticks2 rest) = true
      · have hcond2 := hcond
        rw [Bool.and_eq_true] at hcond2
        obtain ⟨hc, ht⟩ := hcond2
        rw [beq_iff_eq] at hc
        subst hc
        obtain ⟨rest', hrest⟩ := ticks2_decomp rest ht
        subst hrest
        rw [fenceScanF, if_pos hcond]
        have htk : isBrace tkC = false := by decide
        have hlen'' : rest'.length + 2 ≤ f := by
          simp [List.length_cons] at hlen; omega
        by_cases hb : b = true
        · rw [if_pos hb]
          simp only [List.drop_succ_cons, List.drop_zero]
          by_cases hj : isJsonSeq rest' = true
          · obtain ⟨a, b', c', d', rest'', hr, hja, hjb, hjc, hjd⟩ :=
              isJsonSeq_decomp rest' hj
            subst hr
            rw [if_pos hj]
            simp only [List.drop_succ_cons, List.drop_zero]
            rw [ih false rest'' (by simp [List.length_cons] at hlen; omega)]
            rw [filter_cons_not _ _ htk, filter_cons_not _ _ htk,
              filter_cons_not _ _ htk,
              filter_cons_not _ _ (jch_not_brace a 'j' hja (by decide) (by decide)),
              filter_cons_not _ _ (jch_not_brace b' 's' hjb (by decide) (by decide)),
              filter_cons_not _ _ (jch_not_brace c' 'o' hjc (by decide) (by decide)),
              filter_cons_not _ _ (jch_not_brace d' 'n' hjd (by decide) (by decide))]
          · rw [if_neg hj]
            rw [ih false rest' (by omega)]
            rw [filter_cons_not _ _ htk, filter_cons_not _ _ htk,
              filter_cons_not _ _ htk]
        · rw [if_neg hb]
          simp only [List.drop_succ_cons, List.drop_zero]
          by_cases he : rest'.isEmpty = true
          · rw [if_pos he]
            rw [List.isEmpty_iff.mp he]
            decide
          · rw [if_neg he]
            by_cases hh : (rest'.head? == some nlC) = true
            · rw [if_pos hh]
              rw [ih false rest' (by omega)]
              rw [filter_cons_not _ _ htk, filter_cons_not _ _ htk,
                filter_cons_not _ _ htk]
            · rw [if_neg hh]
              have hrec := ih false (tkC :: tkC :: rest') hlen'
              have hxx : ∀ l' : List Char,
                  (tkC :: l').filter isBrace = l'.filter isBrace :=
                fun l' => filter_cons_not tkC l' htk
              rw [filter_cons_not _ _ htk, hrec]
              simp only [hxx]
      · rw [fenceScanF, if_neg hcond]
        have hrec := ih (c == nlC) rest hlen'
        by_cases hbr : isBrace c = true
        · simp [List.filter_cons, hbr, hrec]
        · rw [filter_cons_not _ _ (by rw [Bool.not_eq_true] at hbr; exact hbr), hrec,
            filter_cons_not _ _ (by rw [Bool.not_eq_true] at hbr; exact hbr)]

/-- Filtering to braces does not change whether some right brace follows. -/
theorem any_rb_filter : ∀ l : List Char,
    (l.filter isBrace).any (fun d => d == rbC) = l.any (fun d => d == rbC) := by
  intro l
  induction l with
  | nil => rfl
  | cons c r ih =>
    by_cases hb : isBrace c = true
    · simp only [List.filter_cons, hb, if_pos, List.any_cons, ih]
    · have hcr : (c == rbC) = false := by
        by_contra hx
        rw [Bool.not_eq_false, beq_iff_eq] at hx
        subst hx
        exact hb (by decide)
      rw [Bool.not_eq_true] at hb
      simp only [List.filter_cons, hb, List.any_cons, hcr, ih, Bool.false_or,
        Bool.false_eq_true, if_false]

/-- Whether a `\{.*\}` span exists depends only on the brace subsequence. -/
theorem braceSpan_isSome_filter : ∀ l : List Char,
    (braceSpan l).isSome = (braceSpan (l.filter isBrace)).isSome := by
  intro l
  induction l with
  | nil => rfl
  | cons c r ih =>
    by_cases hlb : c = lbC
    · subst hlb
      unfold braceSpan
      rw [List.filter_cons, if_pos (by decide)]
      rw [List.dropWhile_cons, if_neg (by decide), List.dropWhile_cons,
        if_neg (by decide)]
      dsimp only
      rw [any_rb_filter r]
      by_cases ha : (r.any fun d => d == rbC) = true
      · rw [if_pos ha, if_pos ha]
        rfl
      · rw [if_neg ha, if_neg ha]
    · have h1 : braceSpan (c :: r) = braceSpan r := by
        unfold braceSpan
        rw [List.dropWhile_cons, if_pos (by simp [hlb])]
      by_cases hb : isBrace c = true
      · have hrb : c = rbC := by
          unfold isBrace at hb
          rw [Bool.or_eq_true] at hb
          rcases hb with hx | hx <;> rw [beq_iff_eq] at hx
          · exact absurd hx hlb
          · exact hx
        subst hrb
        rw [h1, List.filter_cons, if_pos (by decide)]
        have h2 : braceSpan (rbC :: r.filter isBrace) = braceSpan (r.filter isBrace) := by
          unfold braceSpan
          rw [List.dropWhile_cons, if_pos (by decide)]
        rw [h2]
        exact ih
      · rw [h1, List.filter_cons, if_neg hb]
        exact ih

/-- Dropping a final non-brace element preserves the brace subsequence. -/
theorem filter_dropLast_of_getLast (l : List Char) (c : Char)
    (h : l.getLast? = some c) (hc : isBrace c = false) :
    l.dropLast.filter isBrace = l.filter isBrace := by
  cases l with
  | nil => cases h
  | cons a l' =>
    have hne : (a :: l') ≠ [] := by simp
    have hgl : (a :: l').getLast hne = c := by
      have hq := List.getLast?_eq_getLast (a :: l') hne
      rw [hq] at h
      exact Option.some.inj h
    conv_rhs => rw [← List.dropLast_append_getLast hne]
    rw [hgl, List.filter_append, filter_cons_not c [] hc]
    simp

/-- The whole pre-extraction pipeline preserves the brace subsequence. -/
theorem filter_cleanPre (raw : String) :
    (cleanPre raw).filter isBrace = raw.toList.filter isBrace := by
  have hpp : (preParen raw).filter isBrace = raw.toList.filter isBrace := by
    unfold preParen fenceSub
    rw [filter_pstrip, filter_fenceScanF _ _ _ (le_refl _), filter_pstrip]
  unfold cleanPre
  by_cases hc : ((preParen raw).head? == some '(' &&
      (preParen raw).getLast? == some ')') = true
  · rw [if_pos hc]
    have hc2 := hc
    rw [Bool.and_eq_true] at hc2
    obtain ⟨hh, hg⟩ := hc2
    rw [beq_iff_eq] at hh hg
    rcases hpre : preParen raw with _ | ⟨a, m⟩
    · rw [hpre] at hh
      cases hh
    · rw [hpre] at hh hg hpp
      have ha : a = '(' := by
        rw [List.head?_cons] at hh
        exact Option.some.inj hh
      subst ha
      rw [filter_pstrip]
      have hmne : m ≠ [] := by
        intro hm
        subst hm
        exact absurd (Option.some.inj hg) (by decide)
      rw [List.drop_succ_cons, List.drop_zero]
      have hglm : m.getLast? = some ')' := by
        cases m with
        | nil => exact absurd rfl hmne
        | cons b m' => rw [List.getLast?_cons_cons] at hg; exact hg
      rw [filter_dropLast_of_getLast m ')' hglm (by decide)]
      rw [filter_cons_not '(' m (by decide)] at hpp
      exact hpp
  · rw [if_neg hc]
    exact hpp

/-- **C6.** Sanitizer failure modes: an input with no `\{...\}` span fails
with the no-JSON error carrying the original raw text; an input whose
extracted candidate span does not parse fails with the invalid-JSON error
carrying the parse error and the candidate text. -/
theorem C6_sanitizer_failure_modes :
    (∀ raw : String, braceSpan raw.toList = none →
      clean_gemini_json raw = .error ⟨400, noJsonDetail raw⟩) ∧
    (∀ (raw : String) (cand : List Char) (e : String),
      braceSpan (cleanPre raw) = some cand →
      jsonLoads (String.mk cand) = .error e →
      clean_gemini_json raw = .error ⟨400, malformedDetail e (String.mk cand)⟩) := by
  constructor
  · intro raw h
    have hnone : braceSpan (cleanPre raw) = none := by
      have h1 := braceSpan_isSome_filter (cleanPre raw)
      have h2 := braceSpan_isSome_filter raw.toList
      rw [filter_cleanPre raw] at h1
      rw [h, Option.isSome_none] at h2
      rw [← h2] at h1
      exact Option.not_isSome_iff_eq_none.mp (by rw [h1]; simp)
    unfold clean_gemini_json
    rw [hnone]
  · intro raw cand e h1 h2
    unfold clean_gemini_json
    rw [h1]
    dsimp only
    rw [h2]

/-- **C6 witness.** `"hello"` has no span and fails with the no-JSON error;
`"\x7bnope\x7d"` extracts an unparsable span and fails with the
invalid-JSON error. -/
theorem C6_sanitizer_failure_witness :
    clean_gemini_json "hello" =
      .error ⟨400, "Gemini returned no JSON block.\nOutput:\nhello"⟩ ∧
    clean_gemini_json "\x7bnope\x7d" =
      .error ⟨400, "Gemini returned invalid JSON: " ++
        "Expecting property name enclosed in double quotes" ++
        "\nCleaned Output:\n\x7bnope\x7d"⟩ := by
  constructor
  · exact (C6_sanitizer_failure_modes.1 "hello" (by decide))
  · exact (C6_sanitizer_failure_modes.2 "\x7bnope\x7d" "\x7bnope\x7d".toList
      "Expecting property name enclosed in double quotes" (by decide) rfl)

/-! ### The fence scan around an embedded JSON object

For the sanitizer round-trip we show that the `re.sub` scan never touches a
backtick-free segment that starts with `\x7b`, and that whatever it removes
from the surrounding text cannot introduce or delete braces. -/

/-- No character of `l` is a brace. -/
def noBraceL (l : List Char) : Bool := l.all (fun c => !(isBrace c))

/-- No character of `l` is a backtick. -/
def noTickL (l : List Char) : Bool := l.all (fun c => !(c == tkC))

/-- The line-start state of the scanner after processing `l` from state
`b`: a position is at a line start exactly when the previous character is a
newline. -/
def lineState (b : Bool) (l : List Char) : Bool :=
  l.foldl (fun _ c => c == nlC) b

/-- The fence scan does not depend on the fuel once it covers the input
length. -/
theorem fenceScanF_fuel : ∀ (f g : Nat) (b : Bool) (l : List Char),
    l.length ≤ f → l.length ≤ g → fenceScanF f b l = fenceScanF g b l := by
  intro f
  induction f with
  | zero =>
    intro g b l hf _
    have hl : l = [] := by
      cases l with
      | nil => rfl
      | cons c r => simp at hf
    subst hl
    cases g <;> rfl
  | succ f ih =>
    intro g b l hf hg
    cases l with
    | nil => cases g <;> rfl
    | cons c rest =>
      cases g with
      | zero => simp at hg
      | succ g' =>
        have hf' : rest.length ≤ f := by simp [List.length_cons] at hf; omega
        have hg' : rest.length ≤ g' := by simp [List.length_cons] at hg; omega
        have hd2 : (rest.drop 2).length ≤ f := by simp [List.length_drop]; omega
        have hd2' : (rest.drop 2).length ≤ g' := by simp [List.length_drop]; omega
        have hd6 : ((rest.drop 2).drop 4).length ≤ f := by
          simp [List.length_drop]; omega
        have hd6' : ((rest.drop 2).drop 4).length ≤ g' := by
          simp [List.length_drop]; omega
        simp only [fenceScanF]
        by_cases hcond : (c == tkC && ticks2 rest) = true
        · rw [if_pos hcond, if_pos hcond]
          by_cases hb : b = true
          · rw [if_pos hb, if_pos hb]
            by_cases hj : isJsonSeq (rest.drop 2) = true
            · rw [if_pos hj, if_pos hj]
              exact ih g' false _ hd6 hd6'
            · rw [if_neg hj, if_neg hj]
              exact ih g' false _ hd2 hd2'
          · rw [if_neg hb, if_neg hb]
            by_cases he : (rest.drop 2).isEmpty = true
            · rw [if_pos he, if_pos he]
            · rw [if_neg he, if_neg he]
              by_cases hh : ((rest.drop 2).head? == some nlC) = true
              · rw [if_pos hh, if_pos hh]
                exact ih g' false _ hd2 hd2'
              · rw [if_neg hh, if_neg hh]
                rw [ih g' false rest hf' hg']
        · rw [if_neg hcond, if_neg hcond]
          rw [ih g' (c == nlC) rest hf' hg']

/-- Scanning a backtick-free segment copies it verbatim and threads the
line-start state through it. -/
theorem fenceScanF_copy : ∀ (l : List Char) (f : Nat) (b : Bool) (r : List Char),
    l.length + r.length ≤ f → noTickL l = true →
    fenceScanF f b (l ++ r) = l ++ fenceScanF f (lineState b l) r := by
  intro l
  induction l with
  | nil =>
    intro f b r _ _
    rfl
  | cons c l' ih =>
    intro f b r hf hall
    cases f with
    | zero => simp [List.length_cons] at hf
    | succ f' =>
      have hc : (c == tkC) = false := by
        have hx := List.all_eq_true.mp hall c (by simp)
        rwa [Bool.not_eq_true'] at hx
      have hall' : noTickL l' = true := by
        unfold noTickL at hall ⊢
        rw [List.all_cons, Bool.and_eq_true] at hall
        exact hall.2
      rw [List.cons_append]
      simp only [fenceScanF]
      rw [if_neg (by simp [hc])]
      rw [ih f' (c == nlC) r (by simp [List.length_cons] at hf; omega) hall']
      rw [fenceScanF_fuel f' (f' + 1) (lineState (c == nlC) l') r
        (by simp [List.length_cons, List.length_append] at hf; omega)
        (by simp [List.length_cons, List.length_append] at hf; omega)]
      rw [show lineState (c == nlC) l' = lineState b (c :: l') from rfl]
      rw [List.cons_append]

/-- A `json` tag matched by the scanner immediately left of a segment that
starts with `\x7b` must lie entirely in the surrounding text. -/
theorem isJsonSeq_append_decomp (α r : List Char) (hr : r.head? = some lbC)
    (h : isJsonSeq (α ++ r) = true) :
    ∃ a1 a2 a3 a4 α', α = a1 :: a2 :: a3 :: a4 :: α' := by
  obtain ⟨r', hxr⟩ : ∃ r', r = lbC :: r' := by
    cases r with
    | nil => cases hr
    | cons x r' =>
      rw [List.head?_cons] at hr
      exact ⟨r', by rw [Option.some.inj hr]⟩
  subst hxr
  rcases α with _ | ⟨a1, α1⟩
  · exfalso
    rw [List.nil_append] at h
    obtain ⟨b1, b2, b3, b4, m', heq, hj1, _, _, _⟩ := isJsonSeq_decomp _ h
    injection heq with h1 _
    rw [← h1] at hj1
    exact absurd hj1 (by decide)
  rcases α1 with _ | ⟨a2, α2⟩
  · exfalso
    rw [List.cons_append, List.nil_append] at h
    obtain ⟨b1, b2, b3, b4, m', heq, _, hj2, _, _⟩ := isJsonSeq_decomp _ h
    injection heq with _ heq
    injection heq with h2 _
    rw [← h2] at hj2
    exact absurd hj2 (by decide)
  rcases α2 with _ | ⟨a3, α3⟩
  · exfalso
    rw [List.cons_append, List.cons_append, List.nil_append] at h
    obtain ⟨b1, b2, b3, b4, m', heq, _, _, hj3, _⟩ := isJsonSeq_decomp _ h
    injection heq with _ heq
    injection heq with _ heq
    injection heq with h3 _
    rw [← h3] at hj3
    exact absurd hj3 (by decide)
  rcases α3 with _ | ⟨a4, α4⟩
  · exfalso
    rw [List.cons_append, List.cons_append, List.cons_append, List.nil_append] at h
    obtain ⟨b1, b2, b3, b4, m', heq, _, _, _, hj4⟩ := isJsonSeq_decomp _ h
    injection heq with _ heq
    injection heq with _ heq
    injection heq with _ heq
    injection heq with h4 _
    rw [← h4] at hj4
    exact absurd hj4 (by decide)
  exact ⟨a1, a2, a3, a4, α4, rfl⟩

/-- Scanning brace-free text followed by a segment that starts with `\x7b`
removes or copies characters only inside the brace-free part, then
continues on the segment in some line-start state. -/
theorem fence_boundary : ∀ (f : Nat) (α : List Char) (b : Bool) (r : List Char),
    α.length + r.length ≤ f → r.head? = some lbC → noBraceL α = true →
    ∃ α₂ b₂, noBraceL α₂ = true ∧
      fenceScanF f b (α ++ r) = α₂ ++ fenceScanF r.length b₂ r := by
  intro f
  induction f with
  | zero =>
    intro α b r hf hr _
    cases r with
    | nil => cases hr
    | cons x r' => simp [List.length_cons] at hf
  | succ f ih =>
    intro α b r hf hr hα
    cases α with
    | nil =>
      refine ⟨[], b, rfl, ?_⟩
      rw [List.nil_append, List.nil_append]
      exact fenceScanF_fuel (f + 1) r.length b r (by simpa using hf) (le_refl _)
    | cons c α' =>
      have hα' : noBraceL α' = true := by
        unfold noBraceL at hα ⊢
        rw [List.all_cons, Bool.and_eq_true] at hα
        exact hα.2
      have hcb : isBrace c = false := by
        have hx := List.all_eq_true.mp hα c (by simp)
        rwa [Bool.not_eq_true'] at hx
      have hflen : α'.length + r.length ≤ f := by
        simp [List.length_cons] at hf; omega
      rw [List.cons_append]
      simp only [fenceScanF]
      by_cases hcond : (c == tkC && ticks2 (α' ++ r)) = true
      · have hc2 := hcond
        rw [Bool.and_eq_true, beq_iff_eq] at hc2
        obtain ⟨hc, ht⟩ := hc2
        subst hc
        rcases α' with _ | ⟨d, α''⟩
        · exfalso
          rw [List.nil_append] at ht
          cases r with
          | nil => cases hr
          | cons x r' =>
            rw [List.head?_cons] at hr
            have hx : x = lbC := Option.some.inj hr
            subst hx
            cases r' with
            | nil => cases ht
            | cons y r'' =>
              unfold ticks2 at ht
              rw [Bool.and_eq_true, beq_iff_eq] at ht
              exact absurd ht.1 (by decide)
        rcases α'' with _ | ⟨e, α₃⟩
        · exfalso
          rw [List.cons_append, List.nil_append] at ht
          cases r with
          | nil => cases hr
          | cons x r' =>
            rw [List.head?_cons] at hr
            have hx : x = lbC := Option.some.inj hr
            subst hx
            unfold ticks2 at ht
            rw [Bool.and_eq_true, beq_iff_eq, beq_iff_eq] at ht
            exact absurd ht.2 (by decide)
        · have hde : d = tkC ∧ e = tkC := by
            rw [List.cons_append, List.cons_append] at ht
            unfold ticks2 at ht
            rw [Bool.and_eq_true, beq_iff_eq, beq_iff_eq] at ht
            exact ht
          obtain ⟨hd, he⟩ := hde
          subst hd
          subst he
          have hα₃ : noBraceL α₃ = true := by
            unfold noBraceL at hα' ⊢
            rw [List.all_cons, List.all_cons, Bool.and_eq_true, Bool.and_eq_true] at hα'
            exact hα'.2.2
          have hdrop2 : ((tkC :: tkC :: α₃) ++ r).drop 2 = α₃ ++ r := by
            rw [List.cons_append, List.cons_append, List.drop_succ_cons,
              List.drop_succ_cons, List.drop_zero]
          rw [if_pos hcond, hdrop2]
          by_cases hb : b = true
          · rw [if_pos hb]
            by_cases hj : isJsonSeq (α₃ ++ r) = true
            · obtain ⟨a1, a2, a3, a4, α₄, hαeq⟩ := isJsonSeq_append_decomp α₃ r hr hj
              subst hαeq
              rw [if_pos hj]
              have hdrop4 : ((a1 :: a2 :: a3 :: a4 :: α₄) ++ r).drop 4 = α₄ ++ r := by
                simp [List.cons_append, List.drop_succ_cons, List.drop_zero]
              rw [hdrop4]
              refine ih α₄ false r ?_ hr ?_
              · simp [List.length_cons] at hflen ⊢; omega
              · unfold noBraceL at hα₃ ⊢
                simp only [List.all_cons, Bool.and_eq_true] at hα₃
                exact hα₃.2.2.2.2
            · rw [if_neg hj]
              refine ih α₃ false r ?_ hr hα₃
              simp [List.length_cons] at hflen ⊢; omega
          · rw [if_neg hb]
            by_cases he2 : (α₃ ++ r).isEmpty = true
            · exfalso
              rw [List.isEmpty_iff, List.append_eq_nil] at he2
              rw [he2.2] at hr
              cases hr
            · rw [if_neg he2]
              by_cases hh : ((α₃ ++ r).head? == some nlC) = true
              · rw [if_pos hh]
                cases α₃ with
                | nil =>
                  exfalso
                  rw [List.nil_append, beq_iff_eq, hr] at hh
                  exact absurd (Option.some.inj hh) (by decide)
                | cons g α₄ =>
                  refine ih (g :: α₄) false r ?_ hr hα₃
                  simp [List.length_cons] at hflen ⊢; omega
              · rw [if_neg hh]
                obtain ⟨α₂, b₂, hα₂, heq⟩ := ih (tkC :: tkC :: α₃) false r hflen hr hα'
                refine ⟨tkC :: α₂, b₂, ?_, ?_⟩
                · unfold noBraceL at hα₂ ⊢
                  rw [List.all_cons, Bool.and_eq_true]
                  exact ⟨by decide, hα₂⟩
                · rw [heq, List.cons_append]
      · rw [if_neg hcond]
        obtain ⟨α₂, b₂, hα₂, heq⟩ := ih α' (c == nlC) r hflen hr hα'
        refine ⟨c :: α₂, b₂, ?_, ?_⟩
        · unfold noBraceL at hα₂ ⊢
          rw [List.all_cons, Bool.and_eq_true]
          refine ⟨by rw [Bool.not_eq_true', hcb], hα₂⟩
        · rw [heq, List.cons_append]

/-- `head?` of an append whose left part has a head. -/
theorem head?_append_left (l m : List Char) (c : Char) (h : l.head? = some c) :
    (l ++ m).head? = some c := by
  cases l with
  | nil => cases h
  | cons x t =>
    rw [List.head?_cons] at h
    rw [List.cons_append, List.head?_cons]
    exact h

/-- `dropWhile` stops no later than the head of the right part when that
head fails the predicate. -/
theorem dropWhile_append_head (p : Char → Bool) (α m : List Char) (h : Char)
    (hm : m.head? = some h) (hh : p h = false) :
    (α ++ m).dropWhile p = α.dropWhile p ++ m := by
  induction α with
  | nil =>
    rw [List.nil_append, List.dropWhile_nil, List.nil_append]
    cases m with
    | nil => cases hm
    | cons x m' =>
      rw [List.head?_cons] at hm
      rw [← Option.some.inj hm] at hh
      rw [List.dropWhile_cons, if_neg (by simp [hh])]
  | cons c α' ih =>
    rw [List.cons_append, List.dropWhile_cons, List.dropWhile_cons]
    by_cases hc : p c = true
    · rw [if_pos hc, if_pos hc, ih]
    · rw [if_neg hc, if_neg hc, List.cons_append]

/-- Stripping whitespace around a segment with non-whitespace first and
last characters only trims the flanks. -/
theorem pstrip_boundary (α s β : List Char) (hs1 : s.head? = some lbC)
    (hs2 : s.getLast? = some rbC) :
    pstrip (α ++ s ++ β) =
      α.dropWhile isPyWS ++ s ++ (β.reverse.dropWhile isPyWS).reverse := by
  have hsβ : (s ++ β).head? = some lbC := head?_append_left s β lbC hs1
  have h1 : (α ++ s ++ β).dropWhile isPyWS = α.dropWhile isPyWS ++ (s ++ β) := by
    rw [List.append_assoc]
    exact dropWhile_append_head isPyWS α (s ++ β) lbC hsβ (by decide)
  have hsrev : s.reverse.head? = some rbC := by
    rw [List.head?_reverse]
    exact hs2
  have hsrev2 : (s.reverse ++ (α.dropWhile isPyWS).reverse).head? = some rbC :=
    head?_append_left _ _ rbC hsrev
  unfold pstrip
  rw [h1, List.reverse_append, List.reverse_append]
  have h2 : ((β.reverse ++ s.reverse) ++ (α.dropWhile isPyWS).reverse).dropWhile isPyWS
      = β.reverse.dropWhile isPyWS ++ (s.reverse ++ (α.dropWhile isPyWS).reverse) := by
    rw [List.append_assoc]
    exact dropWhile_append_head isPyWS β.reverse _ rbC hsrev2 (by decide)
  rw [h2, List.reverse_append, List.reverse_append, List.reverse_reverse,
    List.reverse_reverse, List.append_assoc]

/-- `dropWhile` preserves absence of braces. -/
theorem noBraceL_dropWhile (p : Char → Bool) (l : List Char)
    (h : noBraceL l = true) : noBraceL (l.dropWhile p) = true := by
  unfold noBraceL at h ⊢
  rw [List.all_eq_true] at h ⊢
  exact fun x hx => h x ((List.dropWhile_sublist p).subset hx)

/-- `reverse` preserves absence of braces. -/
theorem noBraceL_reverse (l : List Char) : noBraceL l.reverse = noBraceL l := by
  unfold noBraceL
  exact List.all_reverse

/-- `dropLast` preserves absence of braces. -/
theorem noBraceL_dropLast (l : List Char) (h : noBraceL l = true) :
    noBraceL l.dropLast = true := by
  unfold noBraceL at h ⊢
  rw [List.all_eq_true] at h ⊢
  exact fun x hx => h x ((List.dropLast_sublist l).subset hx)

/-- Absence of braces is emptiness of the brace subsequence. -/
theorem noBraceL_iff_filter (l : List Char) :
    noBraceL l = true ↔ l.filter isBrace = [] := by
  simp [noBraceL, List.all_eq_true, List.filter_eq_nil_iff]

/-- Tail of a brace-free list is brace-free. -/
theorem noBraceL_tail (a : Char) (l : List Char) (h : noBraceL (a :: l) = true) :
    noBraceL l = true := by
  unfold noBraceL at h ⊢
  rw [List.all_cons, Bool.and_eq_true] at h
  exact h.2

/-- On brace-free flanks around a `\x7b...\x7d` segment, the `\{.*\}` search
extracts exactly the segment. -/
theorem braceSpan_extract (α s' β : List Char)
    (hα : noBraceL α = true) (hβ : noBraceL β = true)
    (hs : s'.getLast? = some rbC) :
    braceSpan (α ++ (lbC :: s') ++ β) = some (lbC :: s') := by
  have hαdrop : α.dropWhile (fun c => !(c == lbC)) = [] := by
    rw [List.dropWhile_eq_nil_iff]
    intro x hx
    have hb := List.all_eq_true.mp hα x hx
    rw [Bool.not_eq_true'] at hb
    have hxlb : (x == lbC) = false := by
      by_contra hxx
      rw [Bool.not_eq_false, beq_iff_eq] at hxx
      subst hxx
      exact absurd hb (by decide)
    rw [hxlb]
    rfl
  unfold braceSpan
  have h1 : (α ++ (lbC :: s') ++ β).dropWhile (fun c => !(c == lbC)) =
      (lbC :: s') ++ β := by
    rw [List.append_assoc]
    rw [dropWhile_append_head _ α ((lbC :: s') ++ β) lbC
      (by rw [List.cons_append, List.head?_cons]) (by decide)]
    rw [hαdrop, List.nil_append]
  rw [h1, List.cons_append]
  dsimp only
  have hmem : rbC ∈ s' := by
    obtain ⟨hne, hx⟩ := List.mem_getLast?_eq_getLast (l := s') (x := rbC) hs
    rw [hx]
    exact List.getLast_mem hne
  have hany : ((s' ++ β).any fun d => d == rbC) = true := by
    rw [List.any_eq_true]
    exact ⟨rbC, List.mem_append_left _ hmem, by simp⟩
  rw [if_pos hany]
  have hβdrop : β.reverse.dropWhile (fun c => !(c == rbC)) = [] := by
    rw [List.dropWhile_eq_nil_iff]
    intro x hx
    have hb := List.all_eq_true.mp ((noBraceL_reverse β).symm ▸ hβ) x hx
    rw [Bool.not_eq_true'] at hb
    have hxrb : (x == rbC) = false := by
      by_contra hxx
      rw [Bool.not_eq_false, beq_iff_eq] at hxx
      subst hxx
      exact absurd hb (by decide)
    rw [hxrb]
    rfl
  have hup : upToLastRB (s' ++ β) = s' := by
    unfold upToLastRB
    rw [List.reverse_append]
    rw [dropWhile_append_head _ β.reverse s'.reverse rbC
      (by rw [List.head?_reverse]; exact hs) (by decide)]
    rw [hβdrop, List.nil_append, List.reverse_reverse]
  rw [hup]

/-- Strip + fence removal + strip leave an embedded backtick-free
`\x7b...\x7d` segment intact, flanked by brace-free text. -/
theorem preParen_boundary (p s q : String)
    (hP : noBraceL p.toList = true) (hQ : noBraceL q.toList = true)
    (hT : noTickL s.toList = true)
    (hH : s.toList.head? = some lbC) (hL : s.toList.getLast? = some rbC) :
    ∃ A B, noBraceL A = true ∧ noBraceL B = true ∧
      preParen (p ++ s ++ q) = A ++ s.toList ++ B := by
  have htl : (p ++ s ++ q).toList = p.toList ++ s.toList ++ q.toList := by
    show (p ++ s ++ q).data = p.data ++ s.data ++ q.data
    rw [String.data_append, String.data_append]
  have h1 : pstrip ((p ++ s ++ q).toList) =
      p.toList.dropWhile isPyWS ++ s.toList ++
        (q.toList.reverse.dropWhile isPyWS).reverse := by
    rw [htl]
    exact pstrip_boundary _ _ _ hH hL
  have hA0 : noBraceL (p.toList.dropWhile isPyWS) = true := noBraceL_dropWhile _ _ hP
  have hB0 : noBraceL ((q.toList.reverse.dropWhile isPyWS).reverse) = true := by
    rw [noBraceL_reverse]
    exact noBraceL_dropWhile _ _ ((noBraceL_reverse q.toList).symm ▸ hQ)
  have hhead : (s.toList ++ (q.toList.reverse.dropWhile isPyWS).reverse).head? =
      some lbC := head?_append_left _ _ _ hH
  obtain ⟨α₂, b₂, hα₂, heq2⟩ := fence_boundary
    (p.toList.dropWhile isPyWS ++
      (s.toList ++ (q.toList.reverse.dropWhile isPyWS).reverse)).length
    (p.toList.dropWhile isPyWS) true
    (s.toList ++ (q.toList.reverse.dropWhile isPyWS).reverse)
    (by simp [List.length_append]) hhead hA0
  have h3 := fenceScanF_copy s.toList
    (s.toList ++ (q.toList.reverse.dropWhile isPyWS).reverse).length b₂
    ((q.toList.reverse.dropWhile isPyWS).reverse)
    (by simp [List.length_append]) hT
  have hfence : fenceSub (p.toList.dropWhile isPyWS ++ s.toList ++
      (q.toList.reverse.dropWhile isPyWS).reverse) =
      α₂ ++ s.toList ++
        fenceScanF
          (s.toList ++ (q.toList.reverse.dropWhile isPyWS).reverse).length
          (lineState b₂ s.toList)
          ((q.toList.reverse.dropWhile isPyWS).reverse) := by
    unfold fenceSub
    rw [List.append_assoc, heq2, h3, List.append_assoc]
  have hB1 : noBraceL (fenceScanF
      (s.toList ++ (q.toList.reverse.dropWhile isPyWS).reverse).length
      (lineState b₂ s.toList)
      ((q.toList.reverse.dropWhile isPyWS).reverse)) = true := by
    rw [noBraceL_iff_filter]
    rw [filter_fenceScanF _ _ _ (by rw [List.length_append]; omega)]
    exact (noBraceL_iff_filter _).mp hB0
  refine ⟨α₂.dropWhile isPyWS,
    ((fenceScanF (s.toList ++ (q.toList.reverse.dropWhile isPyWS).reverse).length
      (lineState b₂ s.toList)
      ((q.toList.reverse.dropWhile isPyWS).reverse)).reverse.dropWhile isPyWS).reverse,
    noBraceL_dropWhile _ _ hα₂, ?_, ?_⟩
  · rw [noBraceL_reverse]
    exact noBraceL_dropWhile _ _ ((noBraceL_reverse _).symm ▸ hB1)
  · unfold preParen
    rw [h1, hfence]
    exact pstrip_boundary _ _ _ hH hL

/-- The parenthesis-stripping step keeps the embedded segment intact and
the flanks brace-free. -/
theorem cleanPre_boundary (raw : String) (S : List Char)
    (hH : S.head? = some lbC) (hL : S.getLast? = some rbC)
    (A B : List Char) (hA : noBraceL A = true) (hB : noBraceL B = true)
    (hpp : preParen raw = A ++ S ++ B) :
    ∃ A' B', noBraceL A' = true ∧ noBraceL B' = true ∧
      cleanPre raw = A' ++ S ++ B' := by
  unfold cleanPre
  rw [hpp]
  by_cases hcond : ((A ++ S ++ B).head? == some '(' &&
      (A ++ S ++ B).getLast? == some ')') = true
  · rw [if_pos hcond]
    have hc2 := hcond
    rw [Bool.and_eq_true, beq_iff_eq, beq_iff_eq] at hc2
    obtain ⟨hh, hg⟩ := hc2
    rcases A with _ | ⟨a, A3⟩
    · exfalso
      rw [List.nil_append] at hh
      rw [head?_append_left S B lbC hH] at hh
      exact absurd (Option.some.inj hh) (by decide)
    · have hB3 : B ≠ [] := by
        intro hBe
        subst hBe
        rw [List.append_nil] at hg
        rw [List.getLast?_append_of_ne_nil _ (by
          intro hSe
          rw [hSe] at hH
          cases hH)] at hg
        rw [hL] at hg
        exact absurd (Option.some.inj hg) (by decide)
      have hdrop : (((a :: A3) ++ S ++ B).drop 1) = A3 ++ S ++ B := by
        rw [List.cons_append, List.cons_append, List.drop_succ_cons, List.drop_zero]
      have hdl : (A3 ++ S ++ B).dropLast = A3 ++ S ++ B.dropLast := by
        rw [List.dropLast_append_of_ne_nil _ hB3]
      rw [hdrop, hdl]
      rw [pstrip_boundary A3 S B.dropLast hH hL]
      refine ⟨(A3.dropWhile isPyWS), _, noBraceL_dropWhile _ _ (noBraceL_tail a A3 hA),
        ?_, rfl⟩
      rw [noBraceL_reverse]
      exact noBraceL_dropWhile _ _
        ((noBraceL_reverse _).symm ▸ noBraceL_dropLast B hB)
  · rw [if_neg hcond]
    exact ⟨A, B, hA, hB, rfl⟩

/-- **C1 counterexample.** The round-trip fails for arbitrary surrounding
text: embedding the well-formed object `\x7b"a":1\x7d` in a suffix that
contains a stray right brace makes the greedy first-`\x7b`-to-last-`\x7d`
span unparsable, so the sanitizer errors instead of returning the object. -/
theorem C1_sanitizer_roundtrip_counterexample :
    jsonLoads "\x7b\"a\":1\x7d" = .ok (Json.obj [("a", Json.num 1)]) ∧
    clean_gemini_json ("\x7b\"a\":1\x7d" ++ " \x7d") =
      .error ⟨400, "Gemini returned invalid JSON: Extra data" ++
        "\nCleaned Output:\n\x7b\"a\":1\x7d \x7d"⟩ ∧
    clean_gemini_json ("\x7b\"a\":1\x7d" ++ " \x7d") ≠
      .ok (Json.obj [("a", Json.num 1)]) := by
  refine ⟨rfl, rfl, ?_⟩
  intro h
  have h2 : (Except.error (ε := HTTPError) (α := Json)
      ⟨400, "Gemini returned invalid JSON: Extra data" ++
        "\nCleaned Output:\n\x7b\"a\":1\x7d \x7d"⟩) =
      .ok (Json.obj [("a", Json.num 1)]) := by
    rw [← h]
    rfl
  cases h2

/-- **C1 (amended).** Sanitizer round-trip: a well-formed JSON object text
(backtick-free) embedded in surrounding text that contains no brace
characters — which covers markdown code fences, wrapping parentheses and
plain prose — is recovered exactly by `clean_gemini_json`.  (Surrounding
text containing a brace can break the greedy span extraction, see the
counterexample.) -/
theorem C1_sanitizer_roundtrip_amended :
    ∀ (p s q : String) (v : Json),
    noBraceL p.toList = true → noBraceL q.toList = true →
    noTickL s.toList = true →
    s.toList.head? = some lbC → s.toList.getLast? = some rbC →
    jsonLoads s = .ok v →
    clean_gemini_json (p ++ s ++ q) = .ok v := by
  intro p s q v hP hQ hT hH hL hload
  obtain ⟨A, B, hA, hB, hpp⟩ := preParen_boundary p s q hP hQ hT hH hL
  obtain ⟨A', B', hA', hB', hcp⟩ :=
    cleanPre_boundary (p ++ s ++ q) s.toList hH hL A B hA hB hpp
  obtain ⟨s₁, hs₁⟩ : ∃ s₁, s.toList = lbC :: s₁ := by
    cases hsl : s.toList with
    | nil => rw [hsl] at hH; cases hH
    | cons x t =>
      rw [hsl, List.head?_cons] at hH
      exact ⟨t, by rw [Option.some.inj hH]⟩
  have hs₁L : s₁.getLast? = some rbC := by
    rw [hs₁] at hL
    cases s₁ with
    | nil => exact absurd (Option.some.inj hL) (by decide)
    | cons y t =>
      rw [List.getLast?_cons_cons] at hL
      exact hL
  unfold clean_gemini_json
  rw [hcp, hs₁]
  rw [braceSpan_extract A' s₁ B' hA' hB' hs₁L]
  rw [← hs₁]
  dsimp only
  rw [show String.mk s.toList = s from rfl, hload]

/-- **C1 witness.** A fenced, parenthesised JSON object with brace-free
prose around it round-trips exactly. -/
theorem C1_sanitizer_roundtrip_witness :
    clean_gemini_json
      ("Sure! (```json\n" ++ "\x7b\"a\": [1, true, null]\x7d" ++ "\n``` )") =
      .ok (Json.obj [("a", Json.arr [Json.num 1, Json.bool true, Json.null])]) :=
  C1_sanitizer_roundtrip_amended "Sure! (```json\n" "\x7b\"a\": [1, true, null]\x7d"
    "\n``` )" (Json.obj [("a", Json.arr [Json.num 1, Json.bool true, Json.null])])
    (by decide) (by decide) (by decide) (by decide) (by decide) rfl

end Quizzler
